import Mathlib

/-!
Verification development for the Health Insight application (`main.py`).

The program takes a disease name, builds a prompt from a fixed template,
calls an external text-generation service with a retry loop
(`call_openai`), extracts a JSON object from the raw response
(`extract_json_block`, `safe_load_json`) and coerces it into a fixed
record shape (`sanitize_info`, `ensure_pct_str`, `coerce_pct`).

This file gives a shallow embedding of those functions.  Python values
are modelled by `PyVal`; Python machine floats are modelled by exact
rationals (the pipeline only ever parses and prints decimal literals, it
performs no float arithmetic, and parse-then-print round-trips exactly in
both worlds for ordinary decimal literals; `inf`/`nan` literals and
scientific-notation printing of very large or very small magnitudes are
outside the modelled input space).  Dictionaries are association lists
with string keys in insertion order, with key re-assignment updating the
first occurrence in place, as in CPython.
-/

set_option maxRecDepth 10000

namespace Health

/-- A Python/JSON-like value, as handled by `main.py`.  `float` carries an
exact rational (see the file comment). -/
inductive PyVal where
  | none
  | bool (b : Bool)
  | int (n : Int)
  | float (q : Rat)
  | str (s : String)
  | list (xs : List PyVal)
  | dict (kvs : List (String × PyVal))
  deriving Repr

/-- Python truthiness (`bool(v)`): `None`, `False`, zero, empty string,
empty list and empty dict are falsy. -/
def pyTruthy : PyVal → Bool
  | .none => false
  | .bool b => b
  | .int n => n != 0
  | .float q => q != 0
  | .str s => s.data != []
  | .list xs => !xs.isEmpty
  | .dict kvs => !kvs.isEmpty

/-- Python `a or b`: `a` if truthy else `b`. -/
def pyOr (a b : PyVal) : PyVal := if pyTruthy a then a else b

/-- `d.get(k, dflt)` for first-occurrence association-list lookup. -/
def dGetOpt (kvs : List (String × PyVal)) (k : String) : Option PyVal :=
  match kvs with
  | [] => Option.none
  | (k', v) :: rest => if k' = k then some v else dGetOpt rest k

/-- `d.get(k, dflt)`. -/
def dGet (kvs : List (String × PyVal)) (k : String) (dflt : PyVal) : PyVal :=
  (dGetOpt kvs k).getD dflt

/-- `d[k] = v`: update the first occurrence of `k` in place, else append
(CPython dict insertion semantics). -/
def setKeyL (kvs : List (String × PyVal)) (k : String) (v : PyVal) :
    List (String × PyVal) :=
  match kvs with
  | [] => [(k, v)]
  | (k', v') :: rest =>
    if k' = k then (k', v) :: rest else (k', v') :: setKeyL rest k v

/-- `k in d` (used only in proofs). -/
def hasKey (kvs : List (String × PyVal)) (k : String) : Bool :=
  (dGetOpt kvs k).isSome

/-! ### Character-level string utilities

Python's `str.strip`, `str.replace` (the program only replaces
single-character patterns: `"%"`, `","`, and `"."` never appears as a
pattern), `str.endswith("%")` and `"12,345".split(".")[0]` are modelled
at the `List Char` level so that they are easy to reason about. -/

/-- Python `str.isspace` characters relevant to `strip()` (ASCII). -/
def pyWs (c : Char) : Bool :=
  c = ' ' || c = '\t' || c = '\n' || c = '\r' || c = '\x0b' || c = '\x0c'

/-- `s.strip()` on a character list. -/
def pyStripL (cs : List Char) : List Char :=
  ((cs.dropWhile pyWs).reverse.dropWhile pyWs).reverse

/-- `s.strip()`. -/
def pyStrip (s : String) : String := String.mk (pyStripL s.data)

/-- `s.replace(c, "")` for a single-character pattern. -/
def removeChar (cs : List Char) (c : Char) : List Char :=
  cs.filter (fun x => x ≠ c)

/-- `s.replace(c, r)` for single characters. -/
def mapChar (cs : List Char) (c r : Char) : List Char :=
  cs.map (fun x => if x = c then r else x)

/-- `s.endswith("%")`. -/
def endsPct (cs : List Char) : Bool := cs.getLast? = some '%'

/-- `s.split(".")[0]`: the prefix before the first dot (the whole
string when there is no dot). -/
def beforeDot (cs : List Char) : List Char :=
  cs.takeWhile (fun c => c ≠ '.')

/-- Decimal digit test. -/
def isDigit (c : Char) : Bool := '0' ≤ c && c ≤ '9'

/-- Value of a decimal digit character. -/
def digitVal (c : Char) : Nat := c.toNat - 48

/-- Numeric value of a digit list, most significant first. -/
def natOfDigits (cs : List Char) : Nat :=
  cs.foldl (fun acc c => acc * 10 + digitVal c) 0

/-- Digit character for `n < 10`. -/
def natDigitChar (n : Nat) : Char := Char.ofNat (48 + n)

/-- Decimal digits of `n`, least significant first (fuelled). -/
def natDigitsRev (fuel n : Nat) : List Char :=
  match fuel with
  | 0 => []
  | f + 1 => if n < 10 then [natDigitChar n]
             else natDigitChar (n % 10) :: natDigitsRev f (n / 10)

/-- Decimal rendering of a natural number. -/
def natRender (n : Nat) : List Char := (natDigitsRev (n + 1) n).reverse

/-- Python `str(int)`. -/
def intRender (n : Int) : List Char :=
  if n < 0 then '-' :: natRender n.natAbs else natRender n.natAbs

/-- Python `int(s)` on a string: optional surrounding whitespace, an
optional sign and a nonempty digit run (underscored literals are outside
the modelled input space).  `none` models `ValueError`. -/
def pyIntParseL (cs : List Char) : Option Int :=
  let t := pyStripL cs
  match t with
  | '-' :: ds =>
    if ds ≠ [] ∧ ds.all isDigit then some (-(natOfDigits ds : Int)) else Option.none
  | '+' :: ds =>
    if ds ≠ [] ∧ ds.all isDigit then some (natOfDigits ds : Int) else Option.none
  | ds =>
    if ds ≠ [] ∧ ds.all isDigit then some (natOfDigits ds : Int) else Option.none

/-- Python `int(s)` on a `String`. -/
def pyIntParse (s : String) : Option Int := pyIntParseL s.data

/-- Value of an integer-part/fraction-part digit pair. -/
def mantVal (ip fp : List Char) : Rat :=
  (natOfDigits ip : Rat) + (natOfDigits fp : Rat) / ((10 : Rat) ^ fp.length)

/-- Mantissa-and-exponent tail of a float literal: `ip`/`fp` are the
digit runs already consumed, `rest2` is what follows them. -/
def floatAfter (ip fp rest2 : List Char) : Option Rat :=
  if ip = [] ∧ fp = [] then Option.none
  else
    match rest2 with
    | [] => some (mantVal ip fp)
    | e :: r =>
      if e = 'e' ∨ e = 'E' then
        match r with
        | [] => Option.none
        | c :: ds =>
          if c = '-' then
            if ds ≠ [] ∧ ds.all isDigit then
              some (mantVal ip fp / (10 : Rat) ^ natOfDigits ds)
            else Option.none
          else if c = '+' then
            if ds ≠ [] ∧ ds.all isDigit then
              some (mantVal ip fp * (10 : Rat) ^ natOfDigits ds)
            else Option.none
          else
            if (c :: ds).all isDigit then
              some (mantVal ip fp * (10 : Rat) ^ natOfDigits (c :: ds))
            else Option.none
      else Option.none

/-- Parse the unsigned part of a float literal: `digits`, `digits.`,
`digits.digits` or `.digits`, with an optional decimal exponent.
Returns the rational value.  (`inf`/`nan` literals are outside the
modelled input space.) -/
def floatBodyParse (cs : List Char) : Option Rat :=
  match cs.drop (cs.takeWhile isDigit).length with
  | '.' :: r =>
    floatAfter (cs.takeWhile isDigit) (r.takeWhile isDigit)
      (r.drop (r.takeWhile isDigit).length)
  | rest => floatAfter (cs.takeWhile isDigit) [] rest

/-- Python `float(s)`: optional surrounding whitespace, optional sign,
then a decimal literal.  `none` models `ValueError`. -/
def pyFloatParseL (cs : List Char) : Option Rat :=
  match pyStripL cs with
  | [] => Option.none
  | c :: rest =>
    if c = '-' then (floatBodyParse rest).map (fun q => -q)
    else if c = '+' then floatBodyParse rest
    else floatBodyParse (c :: rest)

/-- Python `float(s)` on a `String`. -/
def pyFloatParse (s : String) : Option Rat := pyFloatParseL s.data

/-- Remove all factors `p` from `d`, returning `(count, remainder)`. -/
def stripFac (fuel d p : Nat) : Nat × Nat :=
  match fuel with
  | 0 => (0, d)
  | f + 1 =>
    if 2 ≤ p ∧ d % p = 0 ∧ d ≠ 0 then
      ((stripFac f (d / p) p).1 + 1, (stripFac f (d / p) p).2)
    else (0, d)

/-- The digit/dot part of `str(float)`: the digits of `m` padded to at
least `k + 1` places, with a decimal point `k` places from the right
(`k = 0` renders a trailing `.0`, as Python does for integral floats). -/
def floatRenderBody (m k : Nat) : List Char :=
  let digits := natRender m
  let padded := List.replicate (k + 1 - digits.length) '0' ++ digits
  if k = 0 then padded ++ ['.', '0']
  else padded.take (padded.length - k) ++ '.' :: padded.drop (padded.length - k)

/-- Exponent of 2 in a denominator. -/
def fr_a (d : Nat) : Nat := (stripFac d d 2).1

/-- Denominator with the factors of 2 removed. -/
def fr_d2 (d : Nat) : Nat := (stripFac d d 2).2

/-- Exponent of 5 in a denominator. -/
def fr_b (d : Nat) : Nat := (stripFac (fr_d2 d) (fr_d2 d) 5).1

/-- Denominator with the factors of 2 and 5 removed. -/
def fr_d5 (d : Nat) : Nat := (stripFac (fr_d2 d) (fr_d2 d) 5).2

/-- Number of decimal places needed for an exact rendering. -/
def fr_k (d : Nat) : Nat := max (fr_a d) (fr_b d)

/-- Python `str(float)` for a float of value `q`: exact decimal
rendering (Python prints the shortest decimal that round-trips, which
for floats obtained by parsing ordinary decimal literals is that same
literal normalised; magnitudes that Python would print in scientific
notation are outside the modelled input space).  Rationals whose
denominator is not of the form `2^a * 5^b` do not arise as Python
floats; they render to a marker that no numeric parser accepts. -/
def floatRender (q : Rat) : List Char :=
  if fr_d5 q.den ≠ 1 then ['<', '?', '>']
  else
    let m := q.num.natAbs * 10 ^ fr_k q.den / q.den
    if q < 0 then '-' :: floatRenderBody m (fr_k q.den)
    else floatRenderBody m (fr_k q.den)

mutual
/-- Python `str(v)`. -/
def pyStr : PyVal → String
  | .none => "None"
  | .bool true => "True"
  | .bool false => "False"
  | .int n => String.mk (intRender n)
  | .float q => String.mk (floatRender q)
  | .str s => s
  | .list xs => "[" ++ pyReprJoin xs ++ "]"
  | .dict kvs => "\x7b" ++ pyReprEntries kvs ++ "\x7d"

/-- Python `repr(v)`; for strings this adds quotes (escape sequences
inside the quotes are not modelled: container renderings are only ever
used as opaque display strings or fed to numeric parsers, which reject
them regardless). -/
def pyRepr : PyVal → String
  | .str s => "\x27" ++ s ++ "\x27"
  | .none => "None"
  | .bool true => "True"
  | .bool false => "False"
  | .int n => String.mk (intRender n)
  | .float q => String.mk (floatRender q)
  | .list xs => "[" ++ pyReprJoin xs ++ "]"
  | .dict kvs => "\x7b" ++ pyReprEntries kvs ++ "\x7d"

/-- Comma-joined `repr`s of list elements. -/
def pyReprJoin : List PyVal → String
  | [] => ""
  | [x] => pyRepr x
  | x :: y :: xs => pyRepr x ++ ", " ++ pyReprJoin (y :: xs)

/-- Comma-joined `key: value` `repr`s of dict entries. -/
def pyReprEntries : List (String × PyVal) → String
  | [] => ""
  | [(k, v)] => "\x27" ++ k ++ "\x27: " ++ pyRepr v
  | (k, v) :: e :: xs => "\x27" ++ k ++ "\x27: " ++ pyRepr v ++ ", " ++ pyReprEntries (e :: xs)
end

/-- Python `int(v)` across types: ints pass through, bools become 0/1,
floats truncate toward zero, strings parse strictly; anything else is a
`TypeError` (`none`). -/
def pyIntOf : PyVal → Option Int
  | .int n => some n
  | .bool b => some (if b then 1 else 0)
  | .float q => some (if q < 0 then -Rat.floor (-q) else Rat.floor q)
  | .str s => pyIntParse s
  | _ => Option.none

/-- Python iteration (`for x in v`): lists yield elements, strings yield
one-character strings, dicts yield their keys; other values raise
`TypeError`. -/
def pyIter : PyVal → Except String (List PyVal)
  | .list xs => .ok xs
  | .str s => .ok (s.data.map (fun c => .str (String.mk [c])))
  | .dict kvs => .ok (kvs.map (fun kv => PyVal.str kv.1))
  | _ => .error "TypeError: object is not iterable"

/-! ### JSON parsing (`json.loads`)

A fuelled recursive-descent parser for strict JSON, modelling
`json.loads`: objects (duplicate keys resolved last-value-wins at the
first key's position, as in CPython), arrays, strings with the standard
escapes (`\uXXXX` taken as a single code point; surrogate pairs and the
nonstandard `NaN`/`Infinity` literals are outside the modelled input
space), numbers (`int` when there is no fraction or exponent, `float`
otherwise), `true`, `false`, `null`.  Trailing non-whitespace makes the
parse fail, as does any malformed input (`none` models a raised
`JSONDecodeError`). -/

/-- JSON insignificant whitespace. -/
def jWs (c : Char) : Bool := c = ' ' || c = '\t' || c = '\n' || c = '\r'

/-- Skip JSON whitespace. -/
def jSkipWs (cs : List Char) : List Char := cs.dropWhile jWs

/-- Hex digit value. -/
def hexVal (c : Char) : Option Nat :=
  if '0' ≤ c ∧ c ≤ '9' then some (c.toNat - 48)
  else if 'a' ≤ c ∧ c ≤ 'f' then some (c.toNat - 87)
  else if 'A' ≤ c ∧ c ≤ 'F' then some (c.toNat - 55)
  else Option.none

/-- Parse the body of a JSON string after the opening quote. -/
def jStr (fuel : Nat) (cs : List Char) (acc : List Char) :
    Option (String × List Char) :=
  match fuel with
  | 0 => Option.none
  | f + 1 =>
    match cs with
    | [] => Option.none
    | '"' :: rest => some (String.mk acc.reverse, rest)
    | '\\' :: e :: rest =>
      match e with
      | '"' => jStr f rest ('"' :: acc)
      | '\\' => jStr f rest ('\\' :: acc)
      | '/' => jStr f rest ('/' :: acc)
      | 'b' => jStr f rest ('\x08' :: acc)
      | 'f' => jStr f rest ('\x0c' :: acc)
      | 'n' => jStr f rest ('\n' :: acc)
      | 'r' => jStr f rest ('\r' :: acc)
      | 't' => jStr f rest ('\t' :: acc)
      | 'u' =>
        match rest with
        | h1 :: h2 :: h3 :: h4 :: rest' =>
          match hexVal h1, hexVal h2, hexVal h3, hexVal h4 with
          | some a, some b, some c, some d =>
            jStr f rest' (Char.ofNat (((a * 16 + b) * 16 + c) * 16 + d) :: acc)
          | _, _, _, _ => Option.none
        | _ => Option.none
      | _ => Option.none
    | c :: rest =>
      if c.toNat < 32 then Option.none else jStr f rest (c :: acc)

/-- Parse a JSON number starting at `cs` (which begins with `-` or a
digit). -/
def jNum (cs : List Char) : Option (PyVal × List Char) :=
  let (neg, cs1) := match cs with
    | '-' :: r => (true, r)
    | r => (false, r)
  let ip := cs1.takeWhile isDigit
  if ip = [] then Option.none
  else if ip.length > 1 ∧ ip.head? = some '0' then Option.none
  else
    let rest1 := cs1.drop ip.length
    let (hadDot, fp, rest2) := match rest1 with
      | '.' :: r =>
        let fp := r.takeWhile isDigit
        (true, fp, r.drop fp.length)
      | r => (false, ([] : List Char), r)
    if hadDot ∧ fp = [] then Option.none
    else
      let (hasExp, exPart) := match rest2 with
        | 'e' :: r => (true, r)
        | 'E' :: r => (true, r)
        | r => (false, r)
      if hasExp then
        let (esgn, eds0) := match exPart with
          | '-' :: r => (true, r)
          | '+' :: r => (false, r)
          | r => (false, r)
        let eds := eds0.takeWhile isDigit
        if eds = [] then Option.none
        else
          let rest4 := eds0.drop eds.length
          let mant : Rat :=
            (natOfDigits ip : Rat) + (natOfDigits fp : Rat) / ((10 : Rat) ^ fp.length)
          let ex : Rat := (10 : Rat) ^ natOfDigits eds
          let q := if esgn then mant / ex else mant * ex
          some (.float (if neg then -q else q), rest4)
      else if fp = [] then
        let n : Int := natOfDigits ip
        some (.int (if neg then -n else n), rest2)
      else
        let q : Rat :=
          (natOfDigits ip : Rat) + (natOfDigits fp : Rat) / ((10 : Rat) ^ fp.length)
        some (.float (if neg then -q else q), rest2)

mutual
/-- Parse one JSON value. -/
def jVal (fuel : Nat) (cs : List Char) : Option (PyVal × List Char) :=
  match fuel with
  | 0 => Option.none
  | f + 1 =>
    match jSkipWs cs with
    | [] => Option.none
    | '"' :: rest => (jStr f rest []).map (fun p => (.str p.1, p.2))
    | '{' :: rest =>
      match jSkipWs rest with
      | '}' :: rest' => some (.dict [], rest')
      | rest' => (jMembers f rest' []).map (fun p => (.dict p.1, p.2))
    | '[' :: rest =>
      match jSkipWs rest with
      | ']' :: rest' => some (.list [], rest')
      | rest' => (jElems f rest' []).map (fun p => (.list p.1, p.2))
    | 't' :: 'r' :: 'u' :: 'e' :: rest => some (.bool true, rest)
    | 'f' :: 'a' :: 'l' :: 's' :: 'e' :: rest => some (.bool false, rest)
    | 'n' :: 'u' :: 'l' :: 'l' :: rest => some (.none, rest)
    | cs' => jNum cs'

/-- Parse object members (after `{` and any whitespace, not at `}`). -/
def jMembers (fuel : Nat) (cs : List Char) (acc : List (String × PyVal)) :
    Option (List (String × PyVal) × List Char) :=
  match fuel with
  | 0 => Option.none
  | f + 1 =>
    match jSkipWs cs with
    | '"' :: rest =>
      match jStr f rest [] with
      | Option.none => Option.none
      | some (k, rest') =>
        match jSkipWs rest' with
        | ':' :: rest'' =>
          match jVal f rest'' with
          | Option.none => Option.none
          | some (v, rest''') =>
            let acc' := setKeyL acc k v
            match jSkipWs rest''' with
            | ',' :: more => jMembers f more acc'
            | '}' :: more => some (acc', more)
            | _ => Option.none
        | _ => Option.none
    | _ => Option.none

/-- Parse array elements (after `[` and any whitespace, not at `]`). -/
def jElems (fuel : Nat) (cs : List Char) (acc : List PyVal) :
    Option (List PyVal × List Char) :=
  match fuel with
  | 0 => Option.none
  | f + 1 =>
    match jVal f cs with
    | Option.none => Option.none
    | some (v, rest) =>
      let acc' := acc ++ [v]
      match jSkipWs rest with
      | ',' :: more => jElems f more acc'
      | ']' :: more => some (acc', more)
      | _ => Option.none
end

/-- `json.loads(s)`: parse one JSON value and require only whitespace
after it. -/
def pyJsonLoads (s : String) : Option PyVal :=
  match jVal (2 * s.data.length + 8) s.data with
  | some (v, rest) => if jSkipWs rest = [] then some v else Option.none
  | Option.none => Option.none

/-! ### `extract_json_block` and `safe_load_json` (main.py lines 83-112) -/

/-- `text.find(c)`: index of the first occurrence. -/
def findC : List Char → Char → Option Nat
  | [], _ => Option.none
  | c :: cs, t => if c = t then some 0 else (findC cs t).map (· + 1)

/-- `text.rfind(c)`: index of the last occurrence. -/
def rfindC (cs : List Char) (t : Char) : Option Nat :=
  (findC cs.reverse t).map (fun i => cs.length - 1 - i)

/-- `text[st : st + len]`. -/
def pySlice (cs : List Char) (st len : Nat) : List Char := (cs.drop st).take len

/-- Modelled semantics of `re.search(r"\x7b.*\x7d", text, re.DOTALL)`:
with a greedy `.*` under DOTALL, the leftmost-longest match runs from
the first `x7b` brace to the last `x7d` brace, and a match exists iff
some closing brace follows some opening brace — i.e. iff the last
closing brace is after the first opening brace. -/
def regexBraceSearch (cs : List Char) : Option (List Char) :=
  match findC cs '{', rfindC cs '}' with
  | some st, some en => if st < en then some (pySlice cs st (en + 1 - st)) else Option.none
  | _, _ => Option.none

/-- `extract_json_block` (main.py lines 83-93): the substring from the
first `x7b` to the last `x7d` when that pair exists in order, else a
greedy brace regex search, else `""`.  Non-string input gives `""`. -/
def extract_json_block (text : PyVal) : String :=
  match text with
  | .str s =>
    let cs := s.data
    match findC cs '{', rfindC cs '}' with
    | some st, some en =>
      if en > st then String.mk (pySlice cs st (en + 1 - st))
      else
        match regexBraceSearch cs with
        | some m => String.mk m
        | Option.none => ""
    | _, _ =>
      match regexBraceSearch cs with
      | some m => String.mk m
      | Option.none => ""
  | _ => ""

/-- `safe_load_json` (main.py lines 95-112): dict input passes through;
string input is parsed directly, then via `extract_json_block`; all
other input (and any parse failure) yields `x7b x7d` (the empty dict). -/
def safe_load_json (text : PyVal) : PyVal :=
  match text with
  | .dict _ => text
  | .str s =>
    match pyJsonLoads s with
    | some v => v
    | Option.none =>
      let block := extract_json_block text
      if block.data ≠ [] then
        match pyJsonLoads block with
        | some v => v
        | Option.none => .dict []
      else .dict []
  | _ => .dict []

/-! ### `sanitize_info` (main.py lines 114-190)

`sanitize_info` mutates its argument in place; the model threads the
dictionary functionally.  Uncaught exceptions are modelled by
`Except.error`: the nested `try/except` around `total_cases` ends in
`stats["total_cases"] = 0`, which raises an uncaught `TypeError` when
`stats` is a truthy non-dict, and the `side_effects` list comprehension
raises an uncaught `TypeError` when its subject is a truthy
non-iterable. -/

/-- The `total_cases` coercion (main.py lines 124-131):
`int(v or 0)`, then `int(str(v).replace(",", "").split(".")[0])`, then
`0`. -/
def coerce_total (v : PyVal) : Int :=
  match pyIntOf (pyOr v (.int 0)) with
  | some n => n
  | Option.none =>
    match pyIntParseL (beforeDot (removeChar (pyStr v).data ',')) with
    | some n => n
    | Option.none => 0

/-- The `cases`/`deaths` coercion (main.py lines 152-165): `int(v or 0)`,
then `int(str(v).replace(",", ""))` — note: no `.split(".")` here —
then `0`. -/
def coerce_cd (v : PyVal) : Int :=
  match pyIntOf (pyOr v (.int 0)) with
  | some n => n
  | Option.none => (pyIntParseL (removeChar (pyStr v).data ',')).getD 0

/-- The `incidence_per_100k` coercion (main.py lines 134-137):
`float(str(v).replace(",", "."))`, defaulting to `0.0`. -/
def coerce_incidence (v : PyVal) : Rat :=
  (pyFloatParseL (mapChar (pyStr v).data ',' '.')).getD 0

/-- `ensure_pct_str` (main.py lines 67-81). -/
def ensure_pct_str (s : PyVal) : String :=
  match s with
  | .none => "0%"
  | _ =>
    let t := pyStripL (pyStr s).data
    if t = [] then "0%"
    else if (pyFloatParseL (mapChar (removeChar t '%') ',' '.')).isSome then
      if endsPct t then String.mk t else String.mk (t ++ ['%'])
    else String.mk t

/-- `coerce_pct` (main.py lines 61-65). -/
def coerce_pct (s : PyVal) : Rat :=
  (pyFloatParseL (mapChar (removeChar (pyStripL (pyStr s).data) '%') ',' '.')).getD 0

/-- `stats["total_cases"] = int(...)` (main.py lines 124-131). -/
def fixStats1 (sd : List (String × PyVal)) : List (String × PyVal) :=
  setKeyL sd "total_cases" (.int (coerce_total (dGet sd "total_cases" (.int 0))))

/-- `stats["incidence_per_100k"] = float(...)` (main.py lines 134-137). -/
def fixStats2 (sd : List (String × PyVal)) : List (String × PyVal) :=
  setKeyL sd "incidence_per_100k"
    (.float (coerce_incidence (dGet sd "incidence_per_100k" (.int 0))))

/-- `stats["recovery_rate"] = ensure_pct_str(...)` (main.py line 140). -/
def fixStats3 (sd : List (String × PyVal)) : List (String × PyVal) :=
  setKeyL sd "recovery_rate" (.str (ensure_pct_str (dGet sd "recovery_rate" (.str "0%"))))

/-- `stats["mortality_rate"] = ensure_pct_str(...)` (main.py line 141). -/
def fixStats4 (sd : List (String × PyVal)) : List (String × PyVal) :=
  setKeyL sd "mortality_rate" (.str (ensure_pct_str (dGet sd "mortality_rate" (.str "0%"))))

/-- The four statistics updates in program order. -/
def fixStatsD (sd : List (String × PyVal)) : List (String × PyVal) :=
  fixStats4 (fixStats3 (fixStats2 (fixStats1 sd)))

/-- The statistics pass of `sanitize_info` (main.py lines 122-141),
applied to `info.get("statistics", x7b x7d) or x7b x7d`.  A truthy
non-dict raises `TypeError` at `stats["total_cases"] = 0`. -/
def fixStats (stats0 : PyVal) : Except String (List (String × PyVal)) :=
  match stats0 with
  | .dict sd => .ok (fixStatsD sd)
  | _ => .error "TypeError: object does not support item assignment"

/-- One `region_breakdown` entry (main.py lines 150-166). -/
def regionFix (r : List (String × PyVal)) : PyVal :=
  .dict [("region", .str (pyStr (pyOr (dGet r "region" (.str "")) (.str "")))),
         ("cases", .int (coerce_cd (dGet r "cases" (.int 0)))),
         ("deaths", .int (coerce_cd (dGet r "deaths" (.int 0))))]

/-- The `region_breakdown` list pass: non-dict elements are skipped. -/
def fixRegions (xs : List PyVal) : List PyVal :=
  xs.filterMap (fun x => match x with
    | .dict e => some (regionFix e)
    | _ => Option.none)

/-- One `medications` entry (main.py lines 173-180).  The
`side_effects` comprehension iterates `m.get("side_effects", []) or []`
and raises `TypeError` when that value is a truthy non-iterable. -/
def medFix (m : List (String × PyVal)) : Except String PyVal :=
  match pyIter (pyOr (dGet m "side_effects" (.list [])) (.list [])) with
  | .error e => .error e
  | .ok elems =>
    .ok (.dict [("name", .str (pyStr (pyOr (dGet m "name" (.str "")) (.str "")))),
                ("dosage", .str (pyStr (pyOr (dGet m "dosage" (.str "")) (.str "")))),
                ("side_effects", .list ((elems.filter pyTruthy).map (fun s => .str (pyStr s))))])

/-- The `medications` list pass: non-dict elements are skipped; a raised
`TypeError` propagates. -/
def fixMeds : List PyVal → Except String (List PyVal)
  | [] => .ok []
  | x :: xs =>
    match x with
    | .dict e =>
      match medFix e with
      | .error err => .error err
      | .ok y =>
        match fixMeds xs with
        | .error err => .error err
        | .ok ys => .ok (y :: ys)
    | _ => fixMeds xs

/-- The `recovery_options` comprehension (main.py line 186):
`x7b str(k): str(v) for k, v in ropts.items() x7d` — keys here are
already strings, and re-inserting an existing key keeps its position. -/
def strMapDict (kvs : List (String × PyVal)) : List (String × PyVal) :=
  kvs.foldl (fun acc kv => setKeyL acc kv.1 (.str (pyStr kv.2))) []

/-- `info["statistics"] = stats` after the statistics pass (main.py
lines 122-143). -/
def sanStats (d : List (String × PyVal)) : Except String (List (String × PyVal)) :=
  match fixStats (pyOr (dGet d "statistics" (.dict [])) (.dict [])) with
  | .error e => .error e
  | .ok sd => .ok (setKeyL d "statistics" (.dict sd))

/-- `info["region_breakdown"] = fixed_regions` (main.py lines 145-167). -/
def sanRegions (d : List (String × PyVal)) : List (String × PyVal) :=
  setKeyL d "region_breakdown"
    (.list (match pyOr (dGet d "region_breakdown" (.list [])) (.list []) with
      | .list xs => fixRegions xs
      | _ => []))

/-- `info["medications"] = fixed_meds` (main.py lines 169-181). -/
def sanMeds (d : List (String × PyVal)) : Except String (List (String × PyVal)) :=
  match (match pyOr (dGet d "medications" (.list [])) (.list []) with
         | .list xs => fixMeds xs
         | _ => .ok []) with
  | .error e => .error e
  | .ok meds => .ok (setKeyL d "medications" (.list meds))

/-- `info["recovery_options"] = ...` (main.py lines 183-188). -/
def sanOpts (d : List (String × PyVal)) : List (String × PyVal) :=
  setKeyL d "recovery_options"
    (.dict (match pyOr (dGet d "recovery_options" (.dict [])) (.dict []) with
      | .dict kvs => strMapDict kvs
      | _ => []))

/-- `sanitize_info` (main.py lines 114-190): the four passes in program
order on a dict; every non-dict yields the empty dict. -/
def sanitize_info (info : PyVal) : Except String PyVal :=
  match info with
  | .dict d =>
    match sanStats d with
    | .error e => .error e
    | .ok d1 =>
      match sanMeds (sanRegions d1) with
      | .error e => .error e
      | .ok d3 => .ok (.dict (sanOpts d3))
  | _ => .ok (.dict [])

/-! ### `str.format` (CPython semantics) and the prompt templates

`call_openai` builds the user prompt with
`USER_TEMPLATE.format(disease=disease)` (main.py line 198), outside the
retry loop try/except.  CPython `str.format` streams through the
template: doubled braces are literals; a single opening brace starts a
replacement field whose name runs to the first `!`, `:` or closing
brace, followed by an optional conversion and an optional format spec
(scanned with brace nesting); the field name is then looked up — a
missing keyword raises `KeyError`, an empty or numeric name with no
positional arguments raises `IndexError`.  The model renders a
successfully looked-up field as the bare value (no field in this
development carries a format spec on the success path, so spec
formatting itself is not modelled).  `Except.error` models the raised
exception. -/

/-- Keyword-argument lookup. -/
def kwLookup (kw : List (String × String)) (name : List Char) : Option String :=
  match kw with
  | [] => Option.none
  | (k, v) :: rest => if k.data = name then some v else kwLookup rest name

/-- Scan a format spec to the closing brace at nesting depth 0,
returning the remainder after it. -/
def specEnd (fuel : Nat) (cs : List Char) (depth : Nat) : Option (List Char) :=
  match fuel with
  | 0 => Option.none
  | f + 1 =>
    match cs with
    | [] => Option.none
    | '}' :: rest => match depth with
      | 0 => some rest
      | d + 1 => specEnd f rest d
    | '{' :: rest => specEnd f rest (depth + 1)
    | _ :: rest => specEnd f rest depth

/-- One pass of CPython `str.format` over the template characters. -/
def formatScan (fuel : Nat) (cs : List Char) (kw : List (String × String)) :
    Except String (List Char) :=
  match fuel with
  | 0 => .error "ValueError: format fuel exhausted"
  | f + 1 =>
    match cs with
    | [] => .ok []
    | '{' :: '{' :: rest => (formatScan f rest kw).map (fun r => '{' :: r)
    | '}' :: '}' :: rest => (formatScan f rest kw).map (fun r => '}' :: r)
    | '}' :: _ => .error "ValueError: Single closing brace encountered in format string"
    | '{' :: rest =>
      let name := rest.takeWhile (fun c => c ≠ '!' ∧ c ≠ ':' ∧ c ≠ '}' ∧ c ≠ '{')
      let rest1 := rest.drop name.length
      let after : Except String (List Char) :=
        match rest1 with
        | '}' :: r => .ok r
        | ':' :: r => match specEnd f r 0 with
          | some r' => .ok r'
          | Option.none => .error "ValueError: expected closing brace before end of string"
        | '!' :: c :: ':' :: r =>
          if c = 's' ∨ c = 'r' ∨ c = 'a' then
            match specEnd f r 0 with
            | some r' => .ok r'
            | Option.none => .error "ValueError: expected closing brace before end of string"
          else .error "ValueError: unknown conversion specifier"
        | '!' :: c :: '}' :: r =>
          if c = 's' ∨ c = 'r' ∨ c = 'a' then .ok r
          else .error "ValueError: unknown conversion specifier"
        | '{' :: _ => .error "ValueError: unexpected opening brace in field name"
        | _ => .error "ValueError: expected closing brace before end of string"
      match after with
      | .error e => .error e
      | .ok r =>
        if name = [] ∨ name.all isDigit then
          .error "IndexError: Replacement index out of range for positional args tuple"
        else
          match kwLookup kw name with
          | some v => (formatScan f r kw).map (fun out => v.data ++ out)
          | Option.none => .error ("KeyError: " ++ String.mk name)
    | c :: rest => (formatScan f rest kw).map (fun r => c :: r)

/-- `template.format(**kw)`. -/
def pyFormat (template : String) (kw : List (String × String)) : Except String String :=
  (formatScan (template.data.length + 1) template.data kw).map String.mk

/-- `USER_TEMPLATE` (main.py lines 31-58), verbatim. -/
def USER_TEMPLATE : String :=
  "\nProvide structured, didactic information about the disease: \"\x7bdisease\x7d\".\nReturn STRICT JSON (no prose outside JSON) with the following schema:\n\n\x7b\n  \"name\": string,\n  \"summary\": string,\n  \"statistics\": \x7b\n    \"total_cases\": integer,\n    \"incidence_per_100k\": number,\n    \"recovery_rate\": string,\n    \"mortality_rate\": string\n  \x7d,\n  \"region_breakdown\": [\n    \x7b\"region\": string, \"cases\": integer, \"deaths\": integer\x7d\n  ],\n  \"recovery_options\": \x7b\n    \"<option_name>\": \"1-3 plain sentences (no medical advice, general info)\"\n  \x7d,\n  \"medications\": [\n    \x7b\"name\": string, \"side_effects\": [string, ...], \"dosage\": string\x7d\n  ],\n  \"disclaimer\": \"This content is educational only and not medical advice.\"\n\x7d\n\nRules:\n- Output MUST be valid JSON with double quotes only. No markdown, no backticks, no text outside JSON.\n"

/-- `SYSTEM_INSTRUCTIONS` (main.py lines 25-29), verbatim. -/
def SYSTEM_INSTRUCTIONS : String :=
  "\nYou are a careful medical information formatter. You NEVER give medical advice.\nYou ONLY return JSON that fits the schema. If you don\x27t know something, estimate conservatively.\nPercentages must be strings with a percent sign (e.g., \"72.4%\"). Integers must be integers.\n"

/-! ### `call_openai` (main.py lines 192-300)

The external service call is modelled by an oracle giving each attempt
an outcome: either the SDK call raises (exception type and message), or
it returns a response.  A response is modelled as the record of the
attributes the probing code reads (`output`, `output_text`,
`output_parsed`, `parsed`, `response`, `data`); absent attributes are
`none`.  Real SDK item objects carry their payload in attributes, which
the probing loop at lines 224-243 never reads (its conditional yields
`None` for every non-dict item), so modelling response items as `PyVal`
is faithful.  The `isinstance(resp, str)` fallback at line 289 is dead
for responses modelled here (a response object is never a `str`).
`time.sleep` is a pure delay with no modelled effect. -/

structure PyResp where
  output : Option PyVal := Option.none
  output_text : Option String := Option.none
  output_parsed : Option PyVal := Option.none
  parsed : Option PyVal := Option.none
  response : Option PyVal := Option.none
  data : Option PyVal := Option.none

/-- `startsWith` on character lists. -/
def startsWithL : List Char → List Char → Bool
  | [], _ => true
  | _ :: _, [] => false
  | p :: ps, c :: cs => p = c && startsWithL ps cs

/-- Python `pat in s` substring test. -/
def containsL (pat : List Char) : List Char → Bool
  | [] => startsWithL pat []
  | c :: cs => startsWithL pat (c :: cs) || containsL pat cs

/-- Is the value a dict? -/
def isDictV : PyVal → Bool
  | .dict _ => true
  | _ => false

/-- Truthiness of the Python variable `parsed` (`None` or a value). -/
def parsedTruthy (p : Option PyVal) : Bool :=
  match p with
  | some v => pyTruthy v
  | Option.none => false

/-- Inner loop of step 1 (main.py lines 228-241) over a `content` list.
The returned flag records a `TypeError` raised by `"json" in <non-str>`,
which the surrounding `except Exception: pass` absorbs, ending step 1
with the state reached so far.  (The redundant
`or c.get("type") == "json"` disjunct is subsumed by the substring
test: a value that equals the string is also a string containing it.) -/
def step1Content : List PyVal → Option PyVal → String → Option PyVal × String × Bool
  | [], parsed, raw => (parsed, raw, false)
  | c :: cs, parsed, raw =>
    match c with
    | .dict e =>
      match pyOr (dGet e "type" (.str "")) (.str "") with
      | .str ts =>
        let cond1 := containsL "json".data ts.data
        let val := pyOr (pyOr (pyOr (dGet e "value" .none) (dGet e "data" .none))
          (dGet e "json" .none)) (dGet e "value" .none)
        if cond1 ∧ isDictV val then (some val, raw, false)
        else
          match dGet e "value" .none with
          | .dict dv => (some (.dict dv), raw, false)
          | _ =>
            match dGet e "text" .none with
            | .str t => step1Content cs parsed (raw ++ t)
            | _ => step1Content cs parsed raw
      | _ => (parsed, raw, true)
    | _ => step1Content cs parsed raw

/-- Outer loop of step 1 (main.py lines 224-243) over `resp.output`. -/
def step1Items : List PyVal → Option PyVal → String → Option PyVal × String
  | [], parsed, raw => (parsed, raw)
  | item :: items, parsed, raw =>
    let content := match item with
      | .dict e => dGet e "content" (.list [])
      | _ => PyVal.none
    match content with
    | .list cs =>
      match step1Content cs parsed raw with
      | (p, r, true) => (p, r)
      | (p, r, false) =>
        if parsedTruthy p then (p, r) else step1Items items p r
    | _ => step1Items items parsed raw

/-- Step 3 (main.py lines 253-263): compose `raw_text` from text parts. -/
def step3Items : List PyVal → String → String
  | [], raw => raw
  | item :: items, raw =>
    match item with
    | .dict e =>
      match dGet e "content" (.list []) with
      | .list cs =>
        step3Items items (cs.foldl (fun acc c =>
          match c with
          | .dict e2 => acc ++ pyStr (pyOr (dGet e2 "text" (.str "")) (.str ""))
          | _ => acc) raw)
      | _ => step3Items items raw
    | _ => step3Items items raw

/-- JSON string escaping for `json.dumps` with `ensure_ascii=False`. -/
def jsonEscapeChar (c : Char) : List Char :=
  if c = '"' then ['\\', '"']
  else if c = '\\' then ['\\', '\\']
  else if c = '\n' then ['\\', 'n']
  else if c = '\r' then ['\\', 'r']
  else if c = '\t' then ['\\', 't']
  else if c = '\x08' then ['\\', 'b']
  else if c = '\x0c' then ['\\', 'f']
  else if c.toNat < 32 then
    ['\\', 'u', '0', '0', natDigitChar (c.toNat / 16), natDigitChar (c.toNat % 16)]
  else [c]

mutual
/-- `json.dumps(v, ensure_ascii=False, indent=2)` at nesting `level`. -/
def pyJsonDumps (level : Nat) : PyVal → String
  | .none => "null"
  | .bool true => "true"
  | .bool false => "false"
  | .int n => String.mk (intRender n)
  | .float q => String.mk (floatRender q)
  | .str s => String.mk ('"' :: (s.data.flatMap jsonEscapeChar ++ ['"']))
  | .list [] => "[]"
  | .list (x :: xs) =>
    "[\n" ++ String.mk (List.replicate (2 * (level + 1)) ' ') ++
      pyDumpsElems level (x :: xs) ++ "\n" ++
      String.mk (List.replicate (2 * level) ' ') ++ "]"
  | .dict [] => "\x7b\x7d"
  | .dict (kv :: kvs) =>
    "\x7b\n" ++ String.mk (List.replicate (2 * (level + 1)) ' ') ++
      pyDumpsEntries level (kv :: kvs) ++ "\n" ++
      String.mk (List.replicate (2 * level) ' ') ++ "\x7d"

/-- Comma-newline joined dumped elements. -/
def pyDumpsElems (level : Nat) : List PyVal → String
  | [] => ""
  | [x] => pyJsonDumps (level + 1) x
  | x :: y :: ys =>
    pyJsonDumps (level + 1) x ++ ",\n" ++
      String.mk (List.replicate (2 * (level + 1)) ' ') ++ pyDumpsElems level (y :: ys)

/-- Comma-newline joined dumped entries. -/
def pyDumpsEntries (level : Nat) : List (String × PyVal) → String
  | [] => ""
  | [(k, v)] =>
    String.mk ('"' :: (k.data.flatMap jsonEscapeChar ++ ['"'])) ++ ": " ++
      pyJsonDumps (level + 1) v
  | (k, v) :: e :: es =>
    String.mk ('"' :: (k.data.flatMap jsonEscapeChar ++ ['"'])) ++ ": " ++
      pyJsonDumps (level + 1) v ++ ",\n" ++
      String.mk (List.replicate (2 * (level + 1)) ' ') ++ pyDumpsEntries level (e :: es)
end

/-- The body of one successful-transport attempt (main.py lines
213-295): probe the response shape, then either sanitize a parsed dict,
sanitize JSON loaded from the raw text, or fail with
`Invalid JSON from model`.  `Except.error` carries the `last` message a
failure leaves behind (including a `TypeError` raised inside
`sanitize_info` and caught by the attempt try/except). -/
def attemptBody (resp : PyResp) : Except String (Bool × PyVal × String) :=
  let st1 : Option PyVal × String :=
    match resp.output with
    | some (.list items) => step1Items items Option.none ""
    | _ => (Option.none, "")
  let parsed := st1.1
  let raw0 := st1.2
  let raw1 := if parsedTruthy parsed then raw0
    else (if (resp.output_text.getD "") ≠ "" then resp.output_text.getD "" else raw0)
  let raw2 :=
    if raw1 = "" then
      match resp.output with
      | some (.list items) => step3Items items raw1
      | _ => raw1
    else raw1
  let parsed2 :=
    if parsedTruthy parsed then parsed
    else
      match resp.output_parsed, resp.parsed, resp.response, resp.data with
      | some (.dict d), _, _, _ => some (.dict d)
      | _, some (.dict d), _, _ => some (.dict d)
      | _, _, some (.dict d), _ => some (.dict d)
      | _, _, _, some (.dict d) => some (.dict d)
      | _, _, _, _ => parsed
  let fallback : Except String (Bool × PyVal × String) :=
    let data := safe_load_json (.str raw2)
    if pyTruthy data then
      match sanitize_info data with
      | .ok rec => .ok (true, rec, raw2)
      | .error e => .error e
    else .error "Invalid JSON from model"
  match parsed2 with
  | some (.dict pd) =>
    if pyTruthy (.dict pd) then
      match sanitize_info (.dict pd) with
      | .ok rec => .ok (true, rec, pyJsonDumps 0 (.dict pd))
      | .error e => .error e
    else fallback
  | _ => fallback

/-- Outcome of one `client.responses.create` call. -/
inductive Outcome where
  | raises (exTy exMsg : String)
  | returns (resp : PyResp)

/-- The retry loop (main.py lines 201-300): 3 attempts, `last` updated
on each failure, early return on success. -/
def callLoop (outcomes : Nat → Outcome) : Nat → Nat → String → Bool × PyVal × String
  | _, 0, last => (false, .dict [], last)
  | i, r + 1, _last =>
    match outcomes i with
    | .raises ty msg => callLoop outcomes (i + 1) r (ty ++ ": " ++ msg)
    | .returns resp =>
      match attemptBody resp with
      | .ok t => t
      | .error m => callLoop outcomes (i + 1) r m

/-- `call_openai` (main.py lines 192-300).  The prompt is built from
`USER_TEMPLATE.format(disease=disease)` at line 198, before the
try/except of the retry loop, so a formatting exception propagates
uncaught (`Except.error`). -/
def call_openai (disease : String) (outcomes : Nat → Outcome) :
    Except String (Bool × PyVal × String) :=
  match pyFormat USER_TEMPLATE [("disease", disease)] with
  | .error e => .error e
  | .ok user_text =>
    let _prompt := pyStrip SYSTEM_INSTRUCTIONS ++ "\n\n" ++ pyStrip user_text
    .ok (callLoop outcomes 0 3 "")

/-- The numeric test inside `ensure_pct_str` and `coerce_pct`. -/
def pctNumeric (t : List Char) : Bool :=
  (pyFloatParseL (mapChar (removeChar t '%') ',' '.')).isSome

/-- The four facts that make a statistics dict a fixed point of
`fixStats`. -/
def statsNormal (sd : List (String × PyVal)) : Prop :=
  (∃ n : Int, dGetOpt sd "total_cases" = some (.int n)) ∧
  (∃ q : Rat, dGetOpt sd "incidence_per_100k" = some (.float q) ∧ ∃ N, q.den ∣ 10 ^ N) ∧
  (∃ r : String, dGetOpt sd "recovery_rate" = some (.str r) ∧
    ensure_pct_str (.str r) = r) ∧
  (∃ r : String, dGetOpt sd "mortality_rate" = some (.str r) ∧
    ensure_pct_str (.str r) = r)

/-! ### Association-list lemmas -/

theorem dGetOpt_setKeyL_self (d : List (String × PyVal)) (k : String) (v : PyVal) :
    dGetOpt (setKeyL d k v) k = some v := by
  induction d with
  | nil => simp [setKeyL, dGetOpt]
  | cons kv rest ih =>
    obtain ⟨k', v'⟩ := kv
    by_cases h : k' = k
    · simp [setKeyL, dGetOpt, h]
    · simp [setKeyL, dGetOpt, h, ih]

theorem dGetOpt_setKeyL_ne (d : List (String × PyVal)) (k k' : String) (v : PyVal)
    (h : k' ≠ k) : dGetOpt (setKeyL d k' v) k = dGetOpt d k := by
  induction d with
  | nil => simp [setKeyL, dGetOpt, h]
  | cons kv rest ih =>
    obtain ⟨k0, v0⟩ := kv
    by_cases h0 : k0 = k'
    · subst h0
      simp [setKeyL, dGetOpt, h]
    · simp [setKeyL, dGetOpt, h0, ih]

theorem setKeyL_self (d : List (String × PyVal)) (k : String) (v : PyVal)
    (h : dGetOpt d k = some v) : setKeyL d k v = d := by
  induction d with
  | nil => simp [dGetOpt] at h
  | cons kv rest ih =>
    obtain ⟨k0, v0⟩ := kv
    by_cases h0 : k0 = k
    · subst h0
      simp [dGetOpt] at h
      simp [setKeyL, h]
    · simp [dGetOpt, h0] at h
      simp [setKeyL, h0, ih h]

theorem dGet_setKeyL_self (d : List (String × PyVal)) (k : String) (v dflt : PyVal) :
    dGet (setKeyL d k v) k dflt = v := by
  simp [dGet, dGetOpt_setKeyL_self]

theorem dGet_setKeyL_ne (d : List (String × PyVal)) (k k' : String) (v dflt : PyVal)
    (h : k' ≠ k) : dGet (setKeyL d k' v) k dflt = dGet d k dflt := by
  simp [dGet, dGetOpt_setKeyL_ne _ _ _ _ h]

/-! ### Stripping and character-list lemmas -/

theorem dropWhile_eq_self_of_head (p : Char → Bool) (cs : List Char)
    (h : ∀ c, cs.head? = some c → p c = false) : cs.dropWhile p = cs := by
  cases cs with
  | nil => rfl
  | cons c rest =>
    have := h c rfl
    simp [List.dropWhile, this]

theorem head_dropWhile_false (p : Char → Bool) (cs : List Char) :
    ∀ c, (cs.dropWhile p).head? = some c → p c = false := by
  induction cs with
  | nil => intro c h; simp [List.dropWhile] at h
  | cons x rest ih =>
    intro c h
    by_cases hx : p x
    · exact ih c (by simpa [List.dropWhile, hx] using h)
    · simp [List.dropWhile, hx] at h
      subst h
      simpa using hx

theorem pyStripL_head_not_ws (cs : List Char) :
    ∀ c, (pyStripL cs).head? = some c → pyWs c = false := by
  intro c hc
  unfold pyStripL at hc
  have hsuf : ((cs.dropWhile pyWs).reverse.dropWhile pyWs) <:+ (cs.dropWhile pyWs).reverse :=
    List.dropWhile_suffix pyWs
  have hpre : ((cs.dropWhile pyWs).reverse.dropWhile pyWs).reverse <+: cs.dropWhile pyWs := by
    have := List.reverse_prefix.mpr hsuf
    simpa using this
  obtain ⟨r, hr⟩ := hpre
  have hhead : (cs.dropWhile pyWs).head? = some c := by
    rw [← hr]
    rcases hx : ((cs.dropWhile pyWs).reverse.dropWhile pyWs).reverse with _ | ⟨x, rest⟩
    · rw [hx] at hc; simp at hc
    · rw [hx] at hc
      simp at hc
      simp [hc]
  exact head_dropWhile_false pyWs cs c hhead

theorem pyStripL_getLast_not_ws (cs : List Char) :
    ∀ c, (pyStripL cs).getLast? = some c → pyWs c = false := by
  intro c hc
  unfold pyStripL at hc
  rw [List.getLast?_reverse] at hc
  exact head_dropWhile_false pyWs (cs.dropWhile pyWs).reverse c hc

theorem pyStripL_eq_self (cs : List Char)
    (h1 : ∀ c, cs.head? = some c → pyWs c = false)
    (h2 : ∀ c, cs.getLast? = some c → pyWs c = false) :
    pyStripL cs = cs := by
  unfold pyStripL
  rw [dropWhile_eq_self_of_head pyWs cs h1]
  have : cs.reverse.dropWhile pyWs = cs.reverse := by
    apply dropWhile_eq_self_of_head
    intro c hc
    rw [List.head?_reverse] at hc
    exact h2 c hc
  rw [this, List.reverse_reverse]

theorem pyStripL_idem (cs : List Char) : pyStripL (pyStripL cs) = pyStripL cs :=
  pyStripL_eq_self _ (pyStripL_head_not_ws cs) (pyStripL_getLast_not_ws cs)

theorem endsPct_concat (t : List Char) : endsPct (t ++ ['%']) = true := by
  simp [endsPct]

theorem removeChar_concat_pct (t : List Char) :
    removeChar (t ++ ['%']) '%' = removeChar t '%' := by
  simp [removeChar]

theorem pyStripL_concat_pct (t : List Char) (ht : pyStripL t = t) :
    pyStripL (t ++ ['%']) = t ++ ['%'] := by
  apply pyStripL_eq_self
  · intro c hc
    cases t with
    | nil =>
      simp at hc
      subst hc
      decide
    | cons x rest =>
      simp at hc
      subst hc
      exact pyStripL_head_not_ws (x :: rest) x (by rw [ht]; rfl)
  · intro c hc
    simp at hc
    subst hc
    decide

/-! ### `ensure_pct_str` lemmas -/

theorem ensure_pct_str_eq (v : PyVal) (hv : v ≠ .none) :
    ensure_pct_str v =
      (let t := pyStripL (pyStr v).data
       if t = [] then "0%"
       else if pctNumeric t then
         if endsPct t then String.mk t else String.mk (t ++ ['%'])
       else String.mk t) := by
  cases v <;> simp_all [ensure_pct_str, pctNumeric]

/-- Every output of `ensure_pct_str` is either the literal `"0%"` or a
stripped nonempty string that ends in `%` whenever it passes the numeric
test. -/
theorem ensure_pct_out_cases (v : PyVal) :
    ensure_pct_str v = "0%" ∨
      ∃ t, pyStripL t = t ∧ t ≠ [] ∧ ensure_pct_str v = String.mk t ∧
        (pctNumeric t = true → endsPct t = true) := by
  by_cases hv : v = .none
  · subst hv
    left
    rfl
  · rw [ensure_pct_str_eq v hv]
    set t := pyStripL (pyStr v).data with ht
    have hts : pyStripL t = t := by rw [ht]; exact pyStripL_idem _
    by_cases h0 : t = []
    · simp [h0]
    · by_cases hnum : pctNumeric t
      · by_cases hend : endsPct t
        · right
          refine ⟨t, hts, h0, ?_, fun _ => hend⟩
          simp [h0, hnum, hend]
        · right
          refine ⟨t ++ ['%'], pyStripL_concat_pct t hts, by simp, ?_, fun _ => endsPct_concat t⟩
          simp [h0, hnum, hend]
      · right
        refine ⟨t, hts, h0, ?_, fun hn => absurd hn (by simpa using hnum)⟩
        simp [h0, hnum]

/-- `ensure_pct_str` is the identity on strings already of output shape. -/
theorem ensure_pct_fixed (t : List Char) (hts : pyStripL t = t) (h0 : t ≠ [])
    (himp : pctNumeric t = true → endsPct t = true) :
    ensure_pct_str (.str (String.mk t)) = String.mk t := by
  rw [ensure_pct_str_eq _ (by simp)]
  show (let t' := pyStripL (String.mk t).data
        if t' = [] then "0%"
        else if pctNumeric t' then
          if endsPct t' then String.mk t' else String.mk (t' ++ ['%'])
        else String.mk t') = String.mk t
  have hdata : (String.mk t).data = t := rfl
  by_cases hnum : pctNumeric t
  · simp [hdata, hts, h0, hnum, himp hnum]
  · simp [hdata, hts, h0, hnum]

theorem ensure_pct_str_idem (v : PyVal) :
    ensure_pct_str (.str (ensure_pct_str v)) = ensure_pct_str v := by
  rcases ensure_pct_out_cases v with h | ⟨t, hts, h0, he, himp⟩
  · rw [h]
    rfl
  · rw [he]
    exact ensure_pct_fixed t hts h0 himp

/-- Every output of `ensure_pct_str` either ends in `%` or fails the
numeric test (it is a non-numeric pass-through). -/
theorem ensure_pct_shape (v : PyVal) :
    endsPct (ensure_pct_str v).data = true ∨
      pyFloatParseL (mapChar (removeChar (ensure_pct_str v).data '%') ',' '.') = Option.none := by
  rcases ensure_pct_out_cases v with h | ⟨t, _, _, he, himp⟩
  · left
    rw [h]
    decide
  · rw [he]
    by_cases hnum : pctNumeric t
    · left
      exact himp hnum
    · right
      have : (pyFloatParseL (mapChar (removeChar t '%') ',' '.')).isSome = false := by
        simpa [pctNumeric] using hnum
      cases hp : pyFloatParseL (mapChar (removeChar t '%') ',' '.') with
      | none => rfl
      | some q => rw [hp] at this; simp at this

/-! ### Decimal digit rendering and parsing lemmas -/

theorem digitVal_natDigitChar (k : Nat) (hk : k < 10) :
    digitVal (natDigitChar k) = k := by
  interval_cases k <;> decide

theorem isDigit_natDigitChar (k : Nat) (hk : k < 10) :
    isDigit (natDigitChar k) = true := by
  interval_cases k <;> decide

theorem natDigitsRev_mem (fuel n : Nat) :
    ∀ c ∈ natDigitsRev fuel n, ∃ k, k < 10 ∧ c = natDigitChar k := by
  induction fuel generalizing n with
  | zero => intro c hc; simp [natDigitsRev] at hc
  | succ f ih =>
    intro c hc
    by_cases h : n < 10
    · simp [natDigitsRev, h] at hc
      exact ⟨n, h, hc⟩
    · simp [natDigitsRev, h] at hc
      rcases hc with hc | hc
      · exact ⟨n % 10, Nat.mod_lt _ (by norm_num), hc⟩
      · exact ih (n / 10) c hc

theorem natRender_mem (n : Nat) :
    ∀ c ∈ natRender n, ∃ k, k < 10 ∧ c = natDigitChar k := by
  intro c hc
  unfold natRender at hc
  exact natDigitsRev_mem (n + 1) n c (by simpa using hc)

theorem natRender_all_digits (n : Nat) : ∀ c ∈ natRender n, isDigit c = true := by
  intro c hc
  obtain ⟨k, hk, rfl⟩ := natRender_mem n c hc
  exact isDigit_natDigitChar k hk

theorem isDigit_props (c : Char) (h : isDigit c = true) :
    c ≠ '.' ∧ c ≠ ',' ∧ c ≠ '-' ∧ c ≠ '+' ∧ pyWs c = false := by
  refine ⟨?_, ?_, ?_, ?_, ?_⟩
  · intro he; rw [he] at h; exact absurd h (by decide)
  · intro he; rw [he] at h; exact absurd h (by decide)
  · intro he; rw [he] at h; exact absurd h (by decide)
  · intro he; rw [he] at h; exact absurd h (by decide)
  · cases hws : pyWs c with
    | false => rfl
    | true =>
      exfalso
      simp [pyWs] at hws
      rcases hws with ((((rfl | rfl) | rfl) | rfl) | rfl) | rfl <;> exact absurd h (by decide)

theorem natDigitsRev_ne_nil (f n : Nat) : natDigitsRev (f + 1) n ≠ [] := by
  by_cases h : n < 10 <;> simp [natDigitsRev, h]

theorem natRender_ne_nil (n : Nat) : natRender n ≠ [] := by
  unfold natRender
  simp [natDigitsRev_ne_nil]

theorem natOfDigits_foldl (b : List Char) (init : Nat) :
    b.foldl (fun acc c => acc * 10 + digitVal c) init =
      init * 10 ^ b.length + natOfDigits b := by
  induction b generalizing init with
  | nil => simp [natOfDigits]
  | cons c rest ih =>
    show rest.foldl _ (init * 10 + digitVal c) = _
    rw [ih (init * 10 + digitVal c)]
    have : natOfDigits (c :: rest) = digitVal c * 10 ^ rest.length + natOfDigits rest := by
      show rest.foldl _ (0 * 10 + digitVal c) = _
      rw [ih (0 * 10 + digitVal c)]
      ring
    rw [this]
    simp [List.length_cons]
    ring

theorem natOfDigits_append (a b : List Char) :
    natOfDigits (a ++ b) = natOfDigits a * 10 ^ b.length + natOfDigits b := by
  unfold natOfDigits
  rw [List.foldl_append]
  exact natOfDigits_foldl b _

theorem natOfDigits_replicate_zero (z : Nat) (b : List Char) :
    natOfDigits (List.replicate z '0' ++ b) = natOfDigits b := by
  rw [natOfDigits_append]
  have : natOfDigits (List.replicate z '0') = 0 := by
    induction z with
    | zero => rfl
    | succ m ih =>
      rw [List.replicate_succ]
      show (List.replicate m '0').foldl _ (0 * 10 + digitVal '0') = 0
      have hd : digitVal '0' = 0 := by decide
      rw [hd]
      exact ih
  rw [this]
  simp

theorem natOfDigits_natDigitsRev (fuel n : Nat) (h : n < fuel) :
    natOfDigits (natDigitsRev fuel n).reverse = n := by
  induction fuel generalizing n with
  | zero => omega
  | succ f ih =>
    by_cases h10 : n < 10
    · simp [natDigitsRev, h10, natOfDigits]
      exact digitVal_natDigitChar n h10
    · have hrec : n / 10 < f := by
        have h1 : n / 10 < n := Nat.div_lt_self (by omega) (by norm_num)
        omega
      simp [natDigitsRev, h10]
      rw [natOfDigits_append, ih (n / 10) hrec]
      have : natOfDigits [natDigitChar (n % 10)] = n % 10 := by
        show 0 * 10 + digitVal (natDigitChar (n % 10)) = n % 10
        rw [digitVal_natDigitChar _ (Nat.mod_lt _ (by norm_num))]
        ring
      rw [this]
      simp
      omega

theorem natOfDigits_natRender (n : Nat) : natOfDigits (natRender n) = n :=
  natOfDigits_natDigitsRev (n + 1) n (by omega)

theorem takeWhile_append_of_all (p : Char → Bool) (a b : List Char)
    (h : ∀ c ∈ a, p c = true) :
    (a ++ b).takeWhile p = a ++ b.takeWhile p := by
  induction a with
  | nil => simp
  | cons c rest ih =>
    have hc := h c (by simp)
    simp [List.takeWhile, hc]
    exact ih (fun x hx => h x (by simp [hx]))

theorem stripFac_spec (p : Nat) (hp : 2 ≤ p) :
    ∀ fuel d, d ≠ 0 → d ≤ fuel →
      (stripFac fuel d p).2 ≠ 0 ∧ d = p ^ (stripFac fuel d p).1 * (stripFac fuel d p).2 ∧
        ¬ p ∣ (stripFac fuel d p).2 := by
  intro fuel
  induction fuel with
  | zero => intro d h0 hle; omega
  | succ f ih =>
    intro d h0 hle
    by_cases hg : 2 ≤ p ∧ d % p = 0 ∧ d ≠ 0
    · have hdvd : p ∣ d := Nat.dvd_of_mod_eq_zero hg.2.1
      have hdp0 : d / p ≠ 0 := by
        intro hz
        have hc := Nat.div_mul_cancel hdvd
        rw [hz] at hc
        simp at hc
        omega
      have hdplt : d / p < d := Nat.div_lt_self (by omega) (by omega)
      have hdple : d / p ≤ f := by omega
      obtain ⟨ihne, iheq, ihnd⟩ := ih (d / p) hdp0 hdple
      have hunf : stripFac (f + 1) d p =
          ((stripFac f (d / p) p).1 + 1, (stripFac f (d / p) p).2) := by
        simp only [stripFac]
        rw [if_pos hg]
      rw [hunf]
      refine ⟨ihne, ?_, ihnd⟩
      set K := (stripFac f (d / p) p).1 with hK
      set R := (stripFac f (d / p) p).2 with hR
      have h2 : d = p * (p ^ K * R) := by
        rw [← iheq]
        exact (Nat.mul_div_cancel' hdvd).symm
      rw [h2]
      ring
    · have hunf : stripFac (f + 1) d p = (0, d) := by
        simp only [stripFac]
        rw [if_neg hg]
      rw [hunf]
      refine ⟨h0, by ring_nf, ?_⟩
      intro hdvd
      obtain ⟨c, rfl⟩ := hdvd
      exact hg ⟨hp, Nat.mul_mod_right p c, h0⟩

theorem takeWhile_eq_self_of_all (p : Char → Bool) (a : List Char)
    (h : ∀ c ∈ a, p c = true) : a.takeWhile p = a := by
  have := takeWhile_append_of_all p a [] h
  simpa using this

/-- `floatBodyParse` on a `digits.digits` layout. -/
theorem floatBodyParse_digits_dot (ipart fpart : List Char)
    (hip : ∀ c ∈ ipart, isDigit c = true) (hfp : ∀ c ∈ fpart, isDigit c = true)
    (hipne : ipart ≠ []) (_hfpne : fpart ≠ []) :
    floatBodyParse (ipart ++ '.' :: fpart) =
      some ((natOfDigits ipart : Rat) + (natOfDigits fpart : Rat) / (10 : Rat) ^ fpart.length) := by
  have h1 : (ipart ++ '.' :: fpart).takeWhile isDigit = ipart := by
    rw [takeWhile_append_of_all _ _ _ hip]
    have hdot : List.takeWhile isDigit ('.' :: fpart) = [] := rfl
    rw [hdot]
    simp
  have h2 : (ipart ++ '.' :: fpart).drop ipart.length = '.' :: fpart := List.drop_left _ _
  have h3 : fpart.takeWhile isDigit = fpart := takeWhile_eq_self_of_all _ _ hfp
  simp only [floatBodyParse, h1, h2, h3, List.drop_length]
  show floatAfter ipart fpart [] = _
  unfold floatAfter
  rw [if_neg (by simp [hipne])]
  rfl

theorem floatRenderBody_parse (m k : Nat) :
    floatBodyParse (floatRenderBody m k) = some ((m : Rat) / (10 : Rat) ^ k) := by
  set digits := natRender m with hdig
  set padded := List.replicate (k + 1 - digits.length) '0' ++ digits with hpad
  have hpd : ∀ c ∈ padded, isDigit c = true := by
    intro c hc
    rw [hpad] at hc
    rcases List.mem_append.mp hc with hrep | hdg
    · have : c = '0' := List.eq_of_mem_replicate hrep
      rw [this]; decide
    · exact natRender_all_digits m c hdg
  have hpne : padded ≠ [] := by
    rw [hpad]
    intro h
    rcases List.append_eq_nil.mp h with ⟨_, h2⟩
    exact natRender_ne_nil m h2
  have hpval : natOfDigits padded = m := by
    rw [hpad, natOfDigits_replicate_zero, hdig, natOfDigits_natRender]
  have hplen : k + 1 ≤ padded.length := by
    rw [hpad]
    simp [List.length_append, List.length_replicate]
    omega
  by_cases hk : k = 0
  · subst hk
    have hbody : floatRenderBody m 0 = padded ++ '.' :: ['0'] := by
      simp [floatRenderBody, ← hdig, ← hpad]
    rw [hbody, floatBodyParse_digits_dot padded ['0'] hpd (by intro c hc; simp at hc; rw [hc]; decide)
      hpne (by simp)]
    have hz : natOfDigits ['0'] = (0 : Nat) := by decide
    rw [hpval, hz]
    norm_num
  · have hkpos : 1 ≤ k := Nat.one_le_iff_ne_zero.mpr hk
    set tk := padded.take (padded.length - k) with htk
    set dk := padded.drop (padded.length - k) with hdk
    have hbody : floatRenderBody m k = tk ++ '.' :: dk := by
      simp [floatRenderBody, ← hdig, ← hpad, hk, ← htk, ← hdk]
    have htk_len : tk.length = padded.length - k := by
      rw [htk, List.length_take]
      omega
    have hdk_len : dk.length = k := by
      rw [hdk, List.length_drop]
      omega
    have htk_ne : tk ≠ [] := by
      intro h
      have := htk_len
      rw [h] at this
      simp at this
      omega
    have hdk_ne : dk ≠ [] := by
      intro h
      have := hdk_len
      rw [h] at this
      simp at this
      omega
    have htk_dig : ∀ c ∈ tk, isDigit c = true := fun c hc => hpd c (List.take_subset _ _ hc)
    have hdk_dig : ∀ c ∈ dk, isDigit c = true := fun c hc => hpd c (List.drop_subset _ _ hc)
    rw [hbody, floatBodyParse_digits_dot tk dk htk_dig hdk_dig htk_ne hdk_ne]
    have hsplit : natOfDigits tk * 10 ^ k + natOfDigits dk = m := by
      have : tk ++ dk = padded := by rw [htk, hdk]; exact List.take_append_drop _ _
      have h4 := natOfDigits_append tk dk
      rw [this, hdk_len] at h4
      omega
    rw [hdk_len]
    congr 1
    have h10 : ((10 : Rat) ^ k) ≠ 0 := by positivity
    have hcast : (natOfDigits tk : Rat) * 10 ^ k + (natOfDigits dk : Rat) = (m : Rat) := by
      exact_mod_cast hsplit
    field_simp
    linarith [hcast]

theorem getLast?_append_right (a b : List Char) (hb : b ≠ []) :
    (a ++ b).getLast? = b.getLast? := by
  rw [← List.head?_reverse, ← List.head?_reverse, List.reverse_append]
  cases hbr : b.reverse with
  | nil => exact absurd (by simpa using hbr) hb
  | cons c l => simp

theorem getLast?_cons_of_ne_nil (c : Char) (l : List Char) (hl : l ≠ []) :
    (c :: l).getLast? = l.getLast? := by
  have : c :: l = [c] ++ l := rfl
  rw [this, getLast?_append_right [c] l hl]

theorem head?_mem (c : Char) (l : List Char) (h : l.head? = some c) : c ∈ l := by
  cases l with
  | nil => simp at h
  | cons x rest => simp at h; simp [h]

theorem getLast?_mem (c : Char) (l : List Char) (h : l.getLast? = some c) : c ∈ l := by
  rw [← List.head?_reverse] at h
  have := head?_mem c l.reverse h
  simpa using this

/-- Structure facts about `floatRenderBody`: nonempty, and its first and
last characters are digits. -/
theorem floatRenderBody_facts (m k : Nat) :
    floatRenderBody m k ≠ [] ∧
      (∀ c, (floatRenderBody m k).head? = some c → isDigit c = true) ∧
      (∀ c, (floatRenderBody m k).getLast? = some c → isDigit c = true) := by
  set digits := natRender m with hdig
  set padded := List.replicate (k + 1 - digits.length) '0' ++ digits with hpad
  have hpd : ∀ c ∈ padded, isDigit c = true := by
    intro c hc
    rw [hpad] at hc
    rcases List.mem_append.mp hc with hrep | hdg
    · have : c = '0' := List.eq_of_mem_replicate hrep
      rw [this]; decide
    · exact natRender_all_digits m c (hdig ▸ hdg)
  have hpne : padded ≠ [] := by
    rw [hpad]
    intro h
    rcases List.append_eq_nil.mp h with ⟨_, h2⟩
    exact natRender_ne_nil m (hdig ▸ h2)
  have hplen : k + 1 ≤ padded.length := by
    rw [hpad]
    simp [List.length_append, List.length_replicate]
    omega
  by_cases hk : k = 0
  · subst hk
    have hbody : floatRenderBody m 0 = padded ++ ['.', '0'] := by
      simp [floatRenderBody, ← hdig, ← hpad]
    rw [hbody]
    refine ⟨by simp, ?_, ?_⟩
    · intro c hc
      cases hp : padded with
      | nil => exact absurd hp hpne
      | cons x rest =>
        rw [hp] at hc
        simp at hc
        exact hpd c (by rw [hp, ← hc]; simp)
    · intro c hc
      rw [getLast?_append_right padded ['.', '0'] (by simp)] at hc
      simp at hc
      rw [← hc]
      decide
  · set tk := padded.take (padded.length - k) with htk
    set dk := padded.drop (padded.length - k) with hdk
    have hbody : floatRenderBody m k = tk ++ '.' :: dk := by
      simp [floatRenderBody, ← hdig, ← hpad, hk, ← htk, ← hdk]
    have htk_len : tk.length = padded.length - k := by
      rw [htk, List.length_take]
      omega
    have hdk_len : dk.length = k := by
      rw [hdk, List.length_drop]
      omega
    have htk_ne : tk ≠ [] := by
      intro h
      rw [h] at htk_len
      simp at htk_len
      omega
    have hdk_ne : dk ≠ [] := by
      intro h
      rw [h] at hdk_len
      simp at hdk_len
      omega
    rw [hbody]
    refine ⟨by simp, ?_, ?_⟩
    · intro c hc
      cases hp : tk with
      | nil => exact absurd hp htk_ne
      | cons x rest =>
        rw [hp] at hc
        simp at hc
        exact hpd c (List.take_subset _ _ (by rw [← htk, hp, ← hc]; simp))
    · intro c hc
      rw [getLast?_append_right tk ('.' :: dk) (by simp),
        getLast?_cons_of_ne_nil '.' dk hdk_ne] at hc
      exact hpd c (List.drop_subset _ _ (hdk ▸ getLast?_mem c dk hc))

/-- Factor decomposition computed by the renderer helpers. -/
theorem fr_decomp (d : Nat) (hd0 : d ≠ 0) :
    d = 2 ^ fr_a d * 5 ^ fr_b d * fr_d5 d ∧ ¬ 2 ∣ fr_d5 d ∧ ¬ 5 ∣ fr_d5 d := by
  obtain ⟨h2ne, h2eq, h2nd⟩ := stripFac_spec 2 (by norm_num) d d hd0 (le_refl _)
  obtain ⟨h5ne, h5eq, h5nd⟩ :=
    stripFac_spec 5 (by norm_num) (fr_d2 d) (fr_d2 d) h2ne (le_refl _)
  have e1 : d = 2 ^ fr_a d * fr_d2 d := h2eq
  have e2 : fr_d2 d = 5 ^ fr_b d * fr_d5 d := h5eq
  refine ⟨?_, ?_, h5nd⟩
  · conv_lhs => rw [e1]
    rw [e2]
    ring
  · intro h
    exact h2nd (h.trans ⟨5 ^ fr_b d,
      show fr_d2 d = fr_d5 d * 5 ^ fr_b d by rw [e2]; ring⟩)

/-- When the denominator divides a power of ten, the renderer takes its
exact-decimal branch. -/
theorem fr_d5_eq_one (d N : Nat) (hd0 : d ≠ 0) (hden : d ∣ 10 ^ N) : fr_d5 d = 1 := by
  obtain ⟨heq, hno2, hno5⟩ := fr_decomp d hd0
  have hdvd : fr_d5 d ∣ d := ⟨2 ^ fr_a d * 5 ^ fr_b d, by
    conv_lhs => rw [heq]
    ring⟩
  have hcop : Nat.Coprime (fr_d5 d) (10 ^ N) := by
    have c2 : Nat.Coprime 2 (fr_d5 d) :=
      (Nat.Prime.coprime_iff_not_dvd Nat.prime_two).mpr hno2
    have c5 : Nat.Coprime 5 (fr_d5 d) :=
      (Nat.Prime.coprime_iff_not_dvd (by norm_num)).mpr hno5
    have c10 : Nat.Coprime 10 (fr_d5 d) := by
      have h10 : (10 : ℕ) = 2 * 5 := by norm_num
      rw [h10]
      exact Nat.Coprime.mul c2 c5
    exact (Nat.Coprime.pow_left N c10).symm
  exact Nat.Coprime.eq_one_of_dvd hcop (hdvd.trans hden)

/-- The denominator divides `10 ^ fr_k d` in the exact-decimal branch. -/
theorem fr_dvd_pow (d : Nat) (hd0 : d ≠ 0) (h1 : fr_d5 d = 1) : d ∣ 10 ^ fr_k d := by
  obtain ⟨heq, _, _⟩ := fr_decomp d hd0
  have hdab : d = 2 ^ fr_a d * 5 ^ fr_b d := by
    conv_lhs => rw [heq]
    rw [h1]
    ring
  refine dvd_trans (dvd_of_eq hdab) ?_
  rw [show (10 : ℕ) ^ fr_k d = 2 ^ fr_k d * 5 ^ fr_k d from by rw [← Nat.mul_pow]]
  exact mul_dvd_mul (pow_dvd_pow 2 (Nat.le_max_left _ _)) (pow_dvd_pow 5 (Nat.le_max_right _ _))

theorem pyFloatParseL_cons_neg (body : List Char)
    (hstrip : pyStripL ('-' :: body) = '-' :: body) :
    pyFloatParseL ('-' :: body) = (floatBodyParse body).map (fun q => -q) := by
  simp only [pyFloatParseL, hstrip]
  simp

theorem pyFloatParseL_cons_plain (c : Char) (body : List Char)
    (h1 : c ≠ '-') (h2 : c ≠ '+')
    (hstrip : pyStripL (c :: body) = c :: body) :
    pyFloatParseL (c :: body) = floatBodyParse (c :: body) := by
  simp only [pyFloatParseL, hstrip]
  simp [h1, h2]

/-- Round-trip: parsing the rendered form of a float recovers its value,
for any value whose denominator divides a power of ten (every Python
float arising in this pipeline does). -/
theorem pyFloatParseL_floatRender (q : Rat) (N : Nat) (hden : q.den ∣ 10 ^ N) :
    pyFloatParseL (floatRender q) = some q := by
  have hd0 : q.den ≠ 0 := q.den_nz
  have hd51 : fr_d5 q.den = 1 := fr_d5_eq_one q.den N hd0 hden
  have hdk : q.den ∣ 10 ^ fr_k q.den := fr_dvd_pow q.den hd0 hd51
  set m := q.num.natAbs * 10 ^ fr_k q.den / q.den with hm
  have hmd : m * q.den = q.num.natAbs * 10 ^ fr_k q.den :=
    Nat.div_mul_cancel (hdk.mul_left _)
  have hfr : floatRender q =
      if q < 0 then '-' :: floatRenderBody m (fr_k q.den)
      else floatRenderBody m (fr_k q.den) := by
    simp only [floatRender, hm]
    rw [if_neg (by simp [hd51])]
  obtain ⟨hbne, hbhead, hblast⟩ := floatRenderBody_facts m (fr_k q.den)
  have hstrip : pyStripL (floatRenderBody m (fr_k q.den)) = floatRenderBody m (fr_k q.den) := by
    apply pyStripL_eq_self
    · intro c hc
      exact (isDigit_props c (hbhead c hc)).2.2.2.2
    · intro c hc
      exact (isDigit_props c (hblast c hc)).2.2.2.2
  have hparse : floatBodyParse (floatRenderBody m (fr_k q.den)) =
      some ((m : Rat) / (10 : Rat) ^ fr_k q.den) := floatRenderBody_parse m (fr_k q.den)
  have hden' : ((q.den : Rat)) ≠ 0 := by exact_mod_cast hd0
  have h10 : ((10 : Rat) ^ fr_k q.den) ≠ 0 := by positivity
  have hqden : q * (q.den : Rat) = (q.num : Rat) := Rat.mul_den_eq_num q
  by_cases hq : q < 0
  · rw [hfr, if_pos hq]
    have hstrip2 : pyStripL ('-' :: floatRenderBody m (fr_k q.den)) =
        '-' :: floatRenderBody m (fr_k q.den) := by
      apply pyStripL_eq_self
      · intro c hc
        simp at hc
        rw [← hc]
        decide
      · intro c hc
        rw [getLast?_cons_of_ne_nil '-' _ hbne] at hc
        exact (isDigit_props c (hblast c hc)).2.2.2.2
    rw [pyFloatParseL_cons_neg _ hstrip2, hparse]
    simp only [Option.map_some']
    congr 1
    have hnum : (q.num.natAbs : Rat) = -(q.num : Rat) := by
      have hqn : q.num < 0 := by
        by_contra hge
        push_neg at hge
        exact absurd (Rat.num_nonneg.mp hge) (by linarith)
      rw [Int.cast_natAbs]
      simp [abs_of_neg hqn]
    have hcast : (m : Rat) * q.den = (q.num.natAbs : Rat) * 10 ^ fr_k q.den := by
      exact_mod_cast hmd
    have key : (m : Rat) = -q * 10 ^ fr_k q.den := by
      apply mul_right_cancel₀ hden'
      rw [hcast, hnum]
      calc (-(q.num : Rat)) * 10 ^ fr_k q.den
          = -(q * q.den) * 10 ^ fr_k q.den := by rw [hqden]
        _ = -q * 10 ^ fr_k q.den * q.den := by ring
    rw [key]
    field_simp
  · rw [hfr, if_neg hq]
    cases hb : floatRenderBody m (fr_k q.den) with
    | nil => exact absurd hb hbne
    | cons c rest =>
      have hcdig : isDigit c = true := hbhead c (by rw [hb]; rfl)
      have hprops := isDigit_props c hcdig
      rw [hb] at hstrip
      rw [pyFloatParseL_cons_plain c rest hprops.2.2.1 hprops.2.2.2.1 hstrip, ← hb, hparse]
      congr 1
      have hnum : (q.num.natAbs : Rat) = (q.num : Rat) := by
        have hqn : 0 ≤ q.num := by
          rw [not_lt] at hq
          exact Rat.num_nonneg.mpr hq
        rw [Int.cast_natAbs]
        simp [abs_of_nonneg hqn]
      have hcast : (m : Rat) * q.den = (q.num.natAbs : Rat) * 10 ^ fr_k q.den := by
        exact_mod_cast hmd
      have key : (m : Rat) = q * 10 ^ fr_k q.den := by
        apply mul_right_cancel₀ hden'
        rw [hcast, hnum]
        calc ((q.num : Rat)) * 10 ^ fr_k q.den
            = (q * q.den) * 10 ^ fr_k q.den := by rw [hqden]
          _ = q * 10 ^ fr_k q.den * q.den := by ring
      rw [key]
      field_simp

/-- Every character of the rendered body is a digit or the point. -/
theorem floatRenderBody_mem (m k : Nat) :
    ∀ c ∈ floatRenderBody m k, isDigit c = true ∨ c = '.' := by
  intro c hc
  unfold floatRenderBody at hc
  set digits := natRender m with hdig
  set padded := List.replicate (k + 1 - digits.length) '0' ++ digits with hpad
  have hpd : ∀ x ∈ padded, isDigit x = true := by
    intro x hx
    rw [hpad] at hx
    rcases List.mem_append.mp hx with hrep | hdg
    · have : x = '0' := List.eq_of_mem_replicate hrep
      rw [this]; decide
    · exact natRender_all_digits m x (hdig ▸ hdg)
  by_cases hk : k = 0
  · rw [if_pos hk] at hc
    rcases List.mem_append.mp hc with h1 | h2
    · exact Or.inl (hpd c h1)
    · simp at h2
      rcases h2 with rfl | rfl
      · exact Or.inr rfl
      · exact Or.inl (by decide)
  · rw [if_neg hk] at hc
    rcases List.mem_append.mp hc with h1 | h2
    · exact Or.inl (hpd c (List.take_subset _ _ h1))
    · rcases List.mem_cons.mp h2 with rfl | h3
      · exact Or.inr rfl
      · exact Or.inl (hpd c (List.drop_subset _ _ h3))

/-- The rendered float contains no comma, so the decimal-comma
replacement leaves it unchanged. -/
theorem mapChar_floatRender (q : Rat) :
    mapChar (floatRender q) ',' '.' = floatRender q := by
  have hmem : ∀ c ∈ floatRender q, c ≠ ',' := by
    intro c hc
    unfold floatRender at hc
    by_cases h5 : fr_d5 q.den ≠ 1
    · rw [if_pos h5] at hc
      simp at hc
      rcases hc with rfl | rfl | rfl <;> decide
    · rw [if_neg h5] at hc
      simp only at hc
      by_cases hq : q < 0
      · rw [if_pos hq] at hc
        rcases List.mem_cons.mp hc with rfl | h2
        · decide
        · rcases floatRenderBody_mem _ _ c h2 with hd | rfl
          · exact (isDigit_props c hd).2.1
          · decide
      · rw [if_neg hq] at hc
        rcases floatRenderBody_mem _ _ c hc with hd | rfl
        · exact (isDigit_props c hd).2.1
        · decide
  have hcongr : List.map (fun x => if x = ',' then '.' else x) (floatRender q) =
      List.map id (floatRender q) :=
    List.map_congr_left (fun c hc => by simp [hmem c hc])
  unfold mapChar
  rw [hcongr, List.map_id]

/-- Values produced by `floatAfter` have the form `z / 10 ^ N`. -/
theorem floatAfter_shape (ip fp rest2 : List Char) (q : Rat)
    (h : floatAfter ip fp rest2 = some q) :
    ∃ z : ℤ, ∃ N : Nat, q = (z : Rat) / (10 : Rat) ^ N := by
  unfold floatAfter at h
  split at h
  · simp at h
  · split at h
    · simp at h
      refine ⟨(natOfDigits ip : ℤ) * 10 ^ fp.length + natOfDigits fp, fp.length, ?_⟩
      rw [← h]
      unfold mantVal
      have h1 : ((10 : Rat) ^ fp.length) ≠ 0 := by positivity
      field_simp
      try push_cast
      try ring
    · split at h
      · split at h
        · simp at h
        · rename_i c ds
          split at h
          · split at h
            · simp at h
              refine ⟨(natOfDigits ip : ℤ) * 10 ^ fp.length + natOfDigits fp,
                fp.length + natOfDigits ds, ?_⟩
              rw [← h]
              unfold mantVal
              have h1 : ((10 : Rat) ^ fp.length) ≠ 0 := by positivity
              have h2 : ((10 : Rat) ^ natOfDigits ds) ≠ 0 := by positivity
              rw [pow_add]
              field_simp
              try push_cast
              try ring
            · simp at h
          · split at h
            · split at h
              · simp at h
                refine ⟨((natOfDigits ip : ℤ) * 10 ^ fp.length + natOfDigits fp) *
                  10 ^ natOfDigits ds, fp.length, ?_⟩
                rw [← h]
                unfold mantVal
                have h1 : ((10 : Rat) ^ fp.length) ≠ 0 := by positivity
                field_simp
                try push_cast
                try ring
              · simp at h
            · split at h
              · simp at h
                refine ⟨((natOfDigits ip : ℤ) * 10 ^ fp.length + natOfDigits fp) *
                  10 ^ natOfDigits (c :: ds), fp.length, ?_⟩
                rw [← h]
                unfold mantVal
                have h1 : ((10 : Rat) ^ fp.length) ≠ 0 := by positivity
                field_simp
                try push_cast
                try ring
              · simp at h
      · simp at h

/-- Values produced by `floatBodyParse` have the form `z / 10 ^ N`. -/
theorem floatBodyParse_shape (cs : List Char) (q : Rat) (h : floatBodyParse cs = some q) :
    ∃ z : ℤ, ∃ N : Nat, q = (z : Rat) / (10 : Rat) ^ N := by
  unfold floatBodyParse at h
  split at h
  · exact floatAfter_shape _ _ _ _ h
  · exact floatAfter_shape _ _ _ _ h

/-- Values produced by `pyFloatParseL` have denominators dividing a
power of ten. -/
theorem pyFloatParseL_den (cs : List Char) (q : Rat) (h : pyFloatParseL cs = some q) :
    ∃ N : Nat, q.den ∣ 10 ^ N := by
  have shape : ∃ z : ℤ, ∃ N : Nat, q = (z : Rat) / (10 : Rat) ^ N := by
    unfold pyFloatParseL at h
    split at h
    · exact absurd h (by simp)
    · rename_i c rest heq
      split at h
      · cases hb : floatBodyParse rest with
        | none => rw [hb] at h; simp at h
        | some q' =>
          rw [hb] at h
          simp at h
          obtain ⟨z, N, hzn⟩ := floatBodyParse_shape rest q' hb
          exact ⟨-z, N, by rw [← h, hzn]; push_cast; ring⟩
      · split at h
        · exact floatBodyParse_shape rest q h
        · exact floatBodyParse_shape (c :: rest) q h
  obtain ⟨z, N, hzn⟩ := shape
  refine ⟨N, ?_⟩
  have : q = ((z : Rat)) / (((10 ^ N : ℕ) : ℤ) : Rat) := by
    rw [hzn]
    push_cast
    ring_nf
  rw [this, ← Rat.divInt_eq_div]
  have hd := Rat.den_dvd z ((10 ^ N : ℕ) : ℤ)
  exact_mod_cast hd

/-! ### Coercion lemmas -/

theorem coerce_total_int (n : Int) : coerce_total (.int n) = n := by
  by_cases h : n = 0
  · simp [coerce_total, pyOr, pyTruthy, pyIntOf, h]
  · simp [coerce_total, pyOr, pyTruthy, pyIntOf, h]

theorem coerce_cd_int (n : Int) : coerce_cd (.int n) = n := by
  by_cases h : n = 0
  · simp [coerce_cd, pyOr, pyTruthy, pyIntOf, h]
  · simp [coerce_cd, pyOr, pyTruthy, pyIntOf, h]

theorem coerce_incidence_range (v : PyVal) :
    ∃ N : Nat, (coerce_incidence v).den ∣ 10 ^ N := by
  unfold coerce_incidence
  cases hp : pyFloatParseL (mapChar (pyStr v).data ',' '.') with
  | none => exact ⟨0, by simp⟩
  | some q =>
    simp only [Option.getD_some]
    exact pyFloatParseL_den _ _ hp

theorem coerce_incidence_float (q : Rat) (N : Nat) (hden : q.den ∣ 10 ^ N) :
    coerce_incidence (.float q) = q := by
  unfold coerce_incidence
  have hstr : (pyStr (.float q)).data = floatRender q := rfl
  rw [hstr, mapChar_floatRender, pyFloatParseL_floatRender q N hden]
  rfl

theorem coerce_incidence_idem (v : PyVal) :
    coerce_incidence (.float (coerce_incidence v)) = coerce_incidence v := by
  obtain ⟨N, hN⟩ := coerce_incidence_range v
  exact coerce_incidence_float _ N hN

/-! ### `pyStr` facts -/

theorem str_data_append (a b : String) : (a ++ b).data = a.data ++ b.data := by
  cases a
  cases b
  rfl

theorem floatRender_ne_nil (q : Rat) : floatRender q ≠ [] := by
  unfold floatRender
  by_cases h5 : fr_d5 q.den ≠ 1
  · simp [h5]
  · rw [if_neg h5]
    simp only
    by_cases hq : q < 0
    · simp [hq]
    · rw [if_neg hq]
      exact (floatRenderBody_facts _ _).1

theorem intRender_ne_nil (n : Int) : intRender n ≠ [] := by
  unfold intRender
  by_cases h : n < 0
  · simp [h]
  · simp [h, natRender_ne_nil]

theorem pyStr_truthy_ne_nil (v : PyVal) (hv : pyTruthy v = true) :
    (pyStr v).data ≠ [] := by
  cases v with
  | none => simp [pyTruthy] at hv
  | bool b =>
    cases b
    · simp [pyTruthy] at hv
    · intro h
      simp [pyStr] at h
  | int n =>
    show (String.mk (intRender n)).data ≠ []
    exact intRender_ne_nil n
  | float q =>
    show (String.mk (floatRender q)).data ≠ []
    exact floatRender_ne_nil q
  | str s => simpa [pyTruthy] using hv
  | list xs =>
    show (("[" : String) ++ pyReprJoin xs ++ "]").data ≠ []
    rw [str_data_append, str_data_append]
    simp
  | dict kvs =>
    show (("\x7b" : String) ++ pyReprEntries kvs ++ "\x7d").data ≠ []
    rw [str_data_append, str_data_append]
    simp

/-! ### `strMapDict` lemmas -/

theorem setKeyL_append_of_not_mem (d : List (String × PyVal)) (k : String) (v : PyVal)
    (h : k ∉ d.map Prod.fst) : setKeyL d k v = d ++ [(k, v)] := by
  induction d with
  | nil => rfl
  | cons kv rest ih =>
    obtain ⟨k0, v0⟩ := kv
    have h1 : k0 ≠ k := by
      intro he
      exact h (by simp [he])
    have h2 : k ∉ rest.map Prod.fst := by
      intro he
      exact h (by simp [he])
    simp [setKeyL, h1, ih h2]

theorem keys_setKeyL_mem (d : List (String × PyVal)) (k : String) (v : PyVal)
    (h : k ∈ d.map Prod.fst) : (setKeyL d k v).map Prod.fst = d.map Prod.fst := by
  induction d with
  | nil => simp at h
  | cons kv rest ih =>
    obtain ⟨k0, v0⟩ := kv
    by_cases h0 : k0 = k
    · simp [setKeyL, h0]
    · simp at h
      rcases h with h | h
      · exact absurd h.symm h0
      · simp [setKeyL, h0, ih (by simpa using h)]

theorem setKeyL_mem (d : List (String × PyVal)) (k : String) (v : PyVal) :
    ∀ x ∈ setKeyL d k v, x ∈ d ∨ x = (k, v) := by
  induction d with
  | nil => intro x hx; simp [setKeyL] at hx; simp [hx]
  | cons kv rest ih =>
    obtain ⟨k0, v0⟩ := kv
    intro x hx
    by_cases h0 : k0 = k
    · simp [setKeyL, h0] at hx
      rcases hx with hx | hx
      · right; exact hx
      · left; simp [hx]
    · simp [setKeyL, h0] at hx
      rcases hx with hx | hx
      · left; simp [hx]
      · rcases ih x hx with h | h
        · left; simp [h]
        · right; exact h

theorem strMapDict_fold_nodup (kvs : List (String × PyVal)) :
    ∀ acc : List (String × PyVal), (acc.map Prod.fst).Nodup →
      ((kvs.foldl (fun acc kv => setKeyL acc kv.1 (.str (pyStr kv.2))) acc).map
        Prod.fst).Nodup := by
  induction kvs with
  | nil => intro acc hacc; simpa using hacc
  | cons kv rest ih =>
    intro acc hacc
    apply ih
    show ((setKeyL acc kv.1 (PyVal.str (pyStr kv.2))).map Prod.fst).Nodup
    by_cases hm : kv.1 ∈ acc.map Prod.fst
    · rw [keys_setKeyL_mem _ _ _ hm]
      exact hacc
    · rw [setKeyL_append_of_not_mem _ _ _ hm]
      rw [List.map_append, List.nodup_append]
      refine ⟨hacc, by simp, ?_⟩
      intro a ha
      simp
      intro he
      rw [← he] at hm
      exact hm ha

theorem strMapDict_fold_str (kvs : List (String × PyVal)) :
    ∀ acc : List (String × PyVal), (∀ kv ∈ acc, ∃ s, kv.2 = PyVal.str s) →
      ∀ kv ∈ kvs.foldl (fun acc kv => setKeyL acc kv.1 (.str (pyStr kv.2))) acc,
        ∃ s, kv.2 = PyVal.str s := by
  induction kvs with
  | nil => intro acc hacc; simpa using hacc
  | cons kv rest ih =>
    intro acc hacc
    apply ih
    intro x hx
    rcases setKeyL_mem _ _ _ x hx with h | h
    · exact hacc x h
    · exact ⟨pyStr kv.2, by rw [h]⟩

theorem strMapDict_fold_eq (kvs : List (String × PyVal)) :
    ∀ acc : List (String × PyVal), ((acc ++ kvs).map Prod.fst).Nodup →
      (∀ kv ∈ kvs, ∃ s, kv.2 = PyVal.str s) →
      kvs.foldl (fun acc kv => setKeyL acc kv.1 (.str (pyStr kv.2))) acc = acc ++ kvs := by
  induction kvs with
  | nil => intro acc _ _; simp
  | cons kv rest ih =>
    intro acc hnd hstr
    obtain ⟨k, v⟩ := kv
    obtain ⟨s, hs⟩ := hstr (k, v) (by simp)
    have hs2 : v = PyVal.str s := hs
    have hs' : PyVal.str (pyStr v) = v := by rw [hs2]; rfl
    have hknotin : k ∉ acc.map Prod.fst := by
      intro hin
      rw [List.map_append] at hnd
      rcases List.nodup_append.mp hnd with ⟨_, _, hdisj⟩
      exact hdisj hin (by simp)
    show rest.foldl _ (setKeyL acc k (.str (pyStr v))) = acc ++ (k, v) :: rest
    rw [hs', setKeyL_append_of_not_mem _ _ _ hknotin]
    have hnd2 : (((acc ++ [(k, v)]) ++ rest).map Prod.fst).Nodup := by
      rw [List.append_assoc]
      simpa using hnd
    rw [ih (acc ++ [(k, v)]) hnd2 (fun x hx => hstr x (by simp [hx]))]
    simp

theorem strMapDict_keys_nodup (kvs : List (String × PyVal)) :
    ((strMapDict kvs).map Prod.fst).Nodup :=
  strMapDict_fold_nodup kvs [] (by simp)

theorem strMapDict_values_str (kvs : List (String × PyVal)) :
    ∀ kv ∈ strMapDict kvs, ∃ s, kv.2 = PyVal.str s :=
  strMapDict_fold_str kvs [] (by simp)

theorem strMapDict_idem (kvs : List (String × PyVal)) :
    strMapDict (strMapDict kvs) = strMapDict kvs := by
  show (strMapDict kvs).foldl _ [] = strMapDict kvs
  have := strMapDict_fold_eq (strMapDict kvs) [] (by simpa using strMapDict_keys_nodup kvs)
    (strMapDict_values_str kvs)
  simpa using this

/-! ### `pyOr` with falsy defaults of like type -/

theorem str_eq_empty_of_data (s : String) (h : s.data = []) : s = "" := by
  cases s with
  | mk d =>
    have hd : d = [] := h
    rw [hd]

theorem pyOr_str_default (s : String) : pyOr (.str s) (.str "") = .str s := by
  by_cases h : s.data = []
  · rw [str_eq_empty_of_data s h]
    rfl
  · simp [pyOr, pyTruthy, h]

theorem pyOr_list_default (xs : List PyVal) : pyOr (.list xs) (.list []) = .list xs := by
  cases xs with
  | nil => rfl
  | cons x rest => simp [pyOr, pyTruthy]

theorem pyOr_dict_default (kvs : List (String × PyVal)) :
    pyOr (.dict kvs) (.dict []) = .dict kvs := by
  cases kvs with
  | nil => rfl
  | cons kv rest => simp [pyOr, pyTruthy]

/-! ### Region and medication entry idempotence -/

theorem regionFix_self (s : String) (c dth : Int) :
    regionFix [("region", .str s), ("cases", .int c), ("deaths", .int dth)] =
      .dict [("region", .str s), ("cases", .int c), ("deaths", .int dth)] := by
  unfold regionFix
  have hr : dGet [("region", PyVal.str s), ("cases", PyVal.int c), ("deaths", PyVal.int dth)]
      "region" (.str "") = .str s := rfl
  have hc : dGet [("region", PyVal.str s), ("cases", PyVal.int c), ("deaths", PyVal.int dth)]
      "cases" (.int 0) = .int c := rfl
  have hd : dGet [("region", PyVal.str s), ("cases", PyVal.int c), ("deaths", PyVal.int dth)]
      "deaths" (.int 0) = .int dth := rfl
  rw [hr, hc, hd, pyOr_str_default, coerce_cd_int, coerce_cd_int]
  rfl

theorem fixRegions_idem (xs : List PyVal) : fixRegions (fixRegions xs) = fixRegions xs := by
  induction xs with
  | nil => rfl
  | cons x rest ih =>
    cases x with
    | dict e =>
      show fixRegions (regionFix e :: fixRegions rest) = regionFix e :: fixRegions rest
      show regionFix _ :: fixRegions (fixRegions rest) = _
      rw [ih]
      congr 1
      exact regionFix_self _ _ _
    | none => exact ih
    | bool b => exact ih
    | int n => exact ih
    | float q => exact ih
    | str s => exact ih
    | list ys => exact ih

theorem str_data_ne_nil_of_ne (t : String) (h : t ≠ "") : t.data ≠ [] := by
  intro hd
  exact h (str_eq_empty_of_data t hd)

theorem medFix_self (nm dg : String) (ses : List String) (hne : ∀ t ∈ ses, t ≠ "") :
    medFix [("name", .str nm), ("dosage", .str dg),
      ("side_effects", .list (ses.map PyVal.str))] =
      .ok (.dict [("name", .str nm), ("dosage", .str dg),
        ("side_effects", .list (ses.map PyVal.str))]) := by
  unfold medFix
  have hse : dGet [("name", PyVal.str nm), ("dosage", PyVal.str dg),
      ("side_effects", PyVal.list (ses.map PyVal.str))] "side_effects" (.list []) =
      .list (ses.map PyVal.str) := rfl
  have hn : dGet [("name", PyVal.str nm), ("dosage", PyVal.str dg),
      ("side_effects", PyVal.list (ses.map PyVal.str))] "name" (.str "") = .str nm := rfl
  have hd : dGet [("name", PyVal.str nm), ("dosage", PyVal.str dg),
      ("side_effects", PyVal.list (ses.map PyVal.str))] "dosage" (.str "") = .str dg := rfl
  rw [hse, hn, hd, pyOr_str_default, pyOr_str_default]
  have hor : pyOr (.list (ses.map PyVal.str)) (.list []) = .list (ses.map PyVal.str) :=
    pyOr_list_default _
  rw [hor]
  show Except.ok _ = _
  have hfilter : (ses.map PyVal.str).filter pyTruthy = ses.map PyVal.str := by
    apply List.filter_eq_self.mpr
    intro a ha
    obtain ⟨t, ht, rfl⟩ := List.mem_map.mp ha
    have hd2 : t.data ≠ [] := str_data_ne_nil_of_ne t (hne t ht)
    simpa [pyTruthy] using hd2
  rw [hfilter, List.map_map]
  have hmap : (ses.map (PyVal.str ∘ fun t => t)) = ses.map PyVal.str := rfl
  congr 1

theorem fixMeds_self (xs ys : List PyVal) (h : fixMeds xs = .ok ys) :
    fixMeds ys = .ok ys := by
  induction xs generalizing ys with
  | nil =>
    simp [fixMeds] at h
    subst h
    rfl
  | cons x rest ih =>
    cases x with
    | dict e =>
      have h' : (match medFix e with
        | Except.error err => (Except.error err : Except String (List PyVal))
        | Except.ok y =>
          match fixMeds rest with
          | Except.error err => Except.error err
          | Except.ok ys => Except.ok (y :: ys)) = Except.ok ys := h
      clear h
      rename' h' => h
      cases hm : medFix e with
      | error err => rw [hm] at h; simp at h
      | ok y =>
        rw [hm] at h
        cases hr : fixMeds rest with
        | error err => rw [hr] at h; simp at h
        | ok ys' =>
          rw [hr] at h
          simp at h
          have hyshape : ∃ nm dg : String, ∃ ses : List String, (∀ t ∈ ses, t ≠ "") ∧
              y = .dict [("name", .str nm), ("dosage", .str dg),
                ("side_effects", .list (ses.map PyVal.str))] := by
            unfold medFix at hm
            cases hi : pyIter (pyOr (dGet e "side_effects" (.list [])) (.list [])) with
            | error err => rw [hi] at hm; simp at hm
            | ok elems =>
              rw [hi] at hm
              simp at hm
              refine ⟨pyStr (pyOr (dGet e "name" (.str "")) (.str "")),
                pyStr (pyOr (dGet e "dosage" (.str "")) (.str "")),
                (elems.filter pyTruthy).map pyStr, ?_, ?_⟩
              · intro t ht
                obtain ⟨v, hv, rfl⟩ := List.mem_map.mp ht
                have hvt : pyTruthy v = true := List.of_mem_filter hv
                exact fun he => pyStr_truthy_ne_nil v hvt (by rw [he])
              · rw [← hm]
                congr 1
                simp [List.map_map]
          obtain ⟨nm, dg, ses, hses, rfl⟩ := hyshape
          rw [← h]
          show (match medFix [("name", PyVal.str nm), ("dosage", PyVal.str dg),
              ("side_effects", PyVal.list (ses.map PyVal.str))] with
            | Except.error err => (Except.error err : Except String (List PyVal))
            | Except.ok y =>
              match fixMeds ys' with
              | Except.error err => Except.error err
              | Except.ok zs => Except.ok (y :: zs)) = _
          rw [medFix_self nm dg ses hses, ih ys' hr]
    | none => exact ih ys h
    | bool b => exact ih ys h
    | int n => exact ih ys h
    | float q => exact ih ys h
    | str s => exact ih ys h
    | list zs => exact ih ys h

/-! ### Statistics pass idempotence -/

theorem dGet_of_dGetOpt (d : List (String × PyVal)) (k : String) (v dflt : PyVal)
    (h : dGetOpt d k = some v) : dGet d k dflt = v := by
  simp [dGet, h]

theorem fixStats_fixed (sd : List (String × PyVal)) (h : statsNormal sd) :
    fixStats (.dict sd) = .ok sd := by
  obtain ⟨⟨n, hn⟩, ⟨q, hq, N, hqd⟩, ⟨r1, hr1, he1⟩, ⟨r2, hr2, he2⟩⟩ := h
  have h1 : fixStats1 sd = sd := by
    unfold fixStats1
    rw [dGet_of_dGetOpt _ _ _ _ hn, coerce_total_int, setKeyL_self _ _ _ hn]
  have h2 : fixStats2 sd = sd := by
    unfold fixStats2
    rw [dGet_of_dGetOpt _ _ _ _ hq, coerce_incidence_float q N hqd, setKeyL_self _ _ _ hq]
  have h3 : fixStats3 sd = sd := by
    unfold fixStats3
    rw [dGet_of_dGetOpt _ _ _ _ hr1, he1, setKeyL_self _ _ _ hr1]
  have h4 : fixStats4 sd = sd := by
    unfold fixStats4
    rw [dGet_of_dGetOpt _ _ _ _ hr2, he2, setKeyL_self _ _ _ hr2]
  show Except.ok (fixStatsD sd) = Except.ok sd
  rw [fixStatsD, h1, h2, h3, h4]

theorem fixStats_out_normal (st0 : PyVal) (sd : List (String × PyVal))
    (h : fixStats st0 = .ok sd) : statsNormal sd := by
  cases st0 with
  | dict sd0 =>
    have h' : fixStatsD sd0 = sd := by
      have h2 : Except.ok (fixStatsD sd0) = (Except.ok sd : Except String _) := h
      exact Except.ok.inj h2
    rw [← h']
    constructor
    · refine ⟨coerce_total (dGet sd0 "total_cases" (.int 0)), ?_⟩
      show dGetOpt (fixStats4 (fixStats3 (fixStats2 (fixStats1 sd0)))) "total_cases" = _
      unfold fixStats4 fixStats3 fixStats2 fixStats1
      rw [dGetOpt_setKeyL_ne _ _ _ _ (by decide), dGetOpt_setKeyL_ne _ _ _ _ (by decide),
        dGetOpt_setKeyL_ne _ _ _ _ (by decide), dGetOpt_setKeyL_self]
    constructor
    · refine ⟨coerce_incidence (dGet (fixStats1 sd0) "incidence_per_100k" (.int 0)), ?_,
        coerce_incidence_range _⟩
      show dGetOpt (fixStats4 (fixStats3 (fixStats2 (fixStats1 sd0)))) "incidence_per_100k" = _
      unfold fixStats4 fixStats3 fixStats2
      rw [dGetOpt_setKeyL_ne _ _ _ _ (by decide), dGetOpt_setKeyL_ne _ _ _ _ (by decide),
        dGetOpt_setKeyL_self]
    constructor
    · refine ⟨ensure_pct_str (dGet (fixStats2 (fixStats1 sd0)) "recovery_rate" (.str "0%")), ?_,
        ensure_pct_str_idem _⟩
      show dGetOpt (fixStats4 (fixStats3 (fixStats2 (fixStats1 sd0)))) "recovery_rate" = _
      unfold fixStats4 fixStats3
      rw [dGetOpt_setKeyL_ne _ _ _ _ (by decide), dGetOpt_setKeyL_self]
    · refine ⟨ensure_pct_str (dGet (fixStats3 (fixStats2 (fixStats1 sd0))) "mortality_rate"
        (.str "0%")), ?_, ensure_pct_str_idem _⟩
      show dGetOpt (fixStats4 (fixStats3 (fixStats2 (fixStats1 sd0)))) "mortality_rate" = _
      unfold fixStats4
      rw [dGetOpt_setKeyL_self]
  | none => simp [fixStats] at h
  | bool b => simp [fixStats] at h
  | int n => simp [fixStats] at h
  | float q => simp [fixStats] at h
  | str s => simp [fixStats] at h
  | list xs => simp [fixStats] at h

/-! ### Fixed points of the four `sanitize_info` passes -/

theorem sanStats_fixed (d sd : List (String × PyVal))
    (hget : dGetOpt d "statistics" = some (.dict sd)) (hn : statsNormal sd) :
    sanStats d = .ok d := by
  unfold sanStats
  rw [dGet_of_dGetOpt _ _ _ _ hget, pyOr_dict_default, fixStats_fixed sd hn]
  show Except.ok (setKeyL d "statistics" (.dict sd)) = Except.ok d
  rw [setKeyL_self _ _ _ hget]

theorem sanRegions_fixed (d : List (String × PyVal)) (regs : List PyVal)
    (hget : dGetOpt d "region_breakdown" = some (.list regs))
    (hfix : fixRegions regs = regs) :
    sanRegions d = d := by
  unfold sanRegions
  rw [dGet_of_dGetOpt _ _ _ _ hget, pyOr_list_default]
  show setKeyL d "region_breakdown" (.list (fixRegions regs)) = d
  rw [hfix]
  exact setKeyL_self _ _ _ hget

theorem sanMeds_fixed (d : List (String × PyVal)) (meds : List PyVal)
    (hget : dGetOpt d "medications" = some (.list meds))
    (hfix : fixMeds meds = .ok meds) :
    sanMeds d = .ok d := by
  unfold sanMeds
  rw [dGet_of_dGetOpt _ _ _ _ hget, pyOr_list_default]
  show (match fixMeds meds with
        | Except.error e => (Except.error e : Except String (List (String × PyVal)))
        | Except.ok meds2 => Except.ok (setKeyL d "medications" (.list meds2))) = Except.ok d
  rw [hfix]
  show Except.ok (setKeyL d "medications" (.list meds)) = Except.ok d
  rw [setKeyL_self _ _ _ hget]

theorem sanOpts_fixed (d : List (String × PyVal)) (opts : List (String × PyVal))
    (hget : dGetOpt d "recovery_options" = some (.dict opts))
    (hfix : strMapDict opts = opts) :
    sanOpts d = d := by
  unfold sanOpts
  rw [dGet_of_dGetOpt _ _ _ _ hget, pyOr_dict_default]
  show setKeyL d "recovery_options" (.dict (strMapDict opts)) = d
  rw [hfix]
  exact setKeyL_self _ _ _ hget

/-- Every successful `sanitize_info` output is a fixed point of each
pass: its four rewritten fields are already in normal form and sit at
their keys. -/
theorem sanitize_info_shape (d dF : List (String × PyVal))
    (h : sanitize_info (.dict d) = .ok (.dict dF)) :
    ∃ sd : List (String × PyVal), ∃ regs meds : List PyVal,
    ∃ opts : List (String × PyVal),
      statsNormal sd ∧ fixRegions regs = regs ∧ fixMeds meds = .ok meds ∧
      strMapDict opts = opts ∧
      dGetOpt dF "statistics" = some (.dict sd) ∧
      dGetOpt dF "region_breakdown" = some (.list regs) ∧
      dGetOpt dF "medications" = some (.list meds) ∧
      dGetOpt dF "recovery_options" = some (.dict opts) := by
  have h0 : (match sanStats d with
      | Except.error e => (Except.error e : Except String PyVal)
      | Except.ok d1 =>
        match sanMeds (sanRegions d1) with
        | Except.error e => Except.error e
        | Except.ok d3 => Except.ok (.dict (sanOpts d3))) = .ok (.dict dF) := h
  cases hS : sanStats d with
  | error e => rw [hS] at h0; exact absurd h0 (by simp)
  | ok d1 =>
    rw [hS] at h0
    have h1 : (match sanMeds (sanRegions d1) with
        | Except.error e => (Except.error e : Except String PyVal)
        | Except.ok d3 => Except.ok (.dict (sanOpts d3))) = .ok (.dict dF) := h0
    cases hM : sanMeds (sanRegions d1) with
    | error e =>
      rw [hM] at h1
      exact absurd h1 (by simp)
    | ok d3 =>
      rw [hM] at h1
      have h2 : Except.ok (PyVal.dict (sanOpts d3)) =
          (Except.ok (PyVal.dict dF) : Except String PyVal) := h1
      have hdF : sanOpts d3 = dF := PyVal.dict.inj (Except.ok.inj h2)
      -- decompose sanStats
      unfold sanStats at hS
      cases hF : fixStats (pyOr (dGet d "statistics" (.dict [])) (.dict [])) with
      | error e => rw [hF] at hS; exact absurd hS (by simp)
      | ok sd =>
        rw [hF] at hS
        have hd1 : setKeyL d "statistics" (.dict sd) = d1 := Except.ok.inj hS
        have hsd : statsNormal sd := fixStats_out_normal _ _ hF
        -- decompose sanMeds
        unfold sanMeds at hM
        cases hFM : (match pyOr (dGet (sanRegions d1) "medications" (.list []))
            (.list []) with
          | .list xs => fixMeds xs
          | _ => .ok []) with
        | error e => rw [hFM] at hM; exact absurd hM (by simp)
        | ok meds =>
          rw [hFM] at hM
          have hd3 : setKeyL (sanRegions d1) "medications" (.list meds) = d3 :=
            Except.ok.inj hM
          have hmeds : fixMeds meds = .ok meds := by
            cases hv : pyOr (dGet (sanRegions d1) "medications" (.list []))
                (.list []) with
            | list xs =>
              rw [hv] at hFM
              exact fixMeds_self xs meds hFM
            | none => rw [hv] at hFM; rw [← Except.ok.inj hFM]; rfl
            | bool b => rw [hv] at hFM; rw [← Except.ok.inj hFM]; rfl
            | int n => rw [hv] at hFM; rw [← Except.ok.inj hFM]; rfl
            | float q => rw [hv] at hFM; rw [← Except.ok.inj hFM]; rfl
            | str s => rw [hv] at hFM; rw [← Except.ok.inj hFM]; rfl
            | dict kvs => rw [hv] at hFM; rw [← Except.ok.inj hFM]; rfl
          -- name the regions and options values
          refine ⟨sd,
            (match pyOr (dGet d1 "region_breakdown" (.list [])) (.list []) with
              | .list xs => fixRegions xs
              | _ => []), meds,
            (match pyOr (dGet d3 "recovery_options" (.dict [])) (.dict []) with
              | .dict kvs => strMapDict kvs
              | _ => []), hsd, ?_, hmeds, ?_, ?_, ?_, ?_, ?_⟩
          · cases hv : pyOr (dGet d1 "region_breakdown" (.list [])) (.list []) with
            | list xs => exact fixRegions_idem xs
            | none => rfl
            | bool b => rfl
            | int n => rfl
            | float q => rfl
            | str s => rfl
            | dict kvs => rfl
          · cases hv : pyOr (dGet d3 "recovery_options" (.dict [])) (.dict []) with
            | dict kvs => exact strMapDict_idem kvs
            | none => rfl
            | bool b => rfl
            | int n => rfl
            | float q => rfl
            | str s => rfl
            | list xs => rfl
          · rw [← hdF]
            unfold sanOpts
            rw [dGetOpt_setKeyL_ne _ _ _ _ (by decide), ← hd3,
              dGetOpt_setKeyL_ne _ _ _ _ (by decide)]
            unfold sanRegions
            rw [dGetOpt_setKeyL_ne _ _ _ _ (by decide), ← hd1, dGetOpt_setKeyL_self]
          · rw [← hdF]
            unfold sanOpts
            rw [dGetOpt_setKeyL_ne _ _ _ _ (by decide), ← hd3,
              dGetOpt_setKeyL_ne _ _ _ _ (by decide)]
            unfold sanRegions
            rw [dGetOpt_setKeyL_self]
          · rw [← hdF]
            unfold sanOpts
            rw [dGetOpt_setKeyL_ne _ _ _ _ (by decide), ← hd3, dGetOpt_setKeyL_self]
          · rw [← hdF]
            unfold sanOpts
            rw [dGetOpt_setKeyL_self]

/-- A successful `sanitize_info` output is a fixed point of
`sanitize_info` itself. -/
theorem sanitize_info_fixed (d dF : List (String × PyVal))
    (h : sanitize_info (.dict d) = .ok (.dict dF)) :
    sanitize_info (.dict dF) = .ok (.dict dF) := by
  obtain ⟨sd, regs, meds, opts, hsd, hregs, hmeds, hopts, g1, g2, g3, g4⟩ :=
    sanitize_info_shape d dF h
  show (match sanStats dF with
      | Except.error e => (Except.error e : Except String PyVal)
      | Except.ok d1 =>
        match sanMeds (sanRegions d1) with
        | Except.error e => Except.error e
        | Except.ok d3 => Except.ok (.dict (sanOpts d3))) = _
  rw [sanStats_fixed dF sd g1 hsd]
  show (match sanMeds (sanRegions dF) with
      | Except.error e => (Except.error e : Except String PyVal)
      | Except.ok d3 => Except.ok (.dict (sanOpts d3))) = _
  rw [sanRegions_fixed dF regs g2 hregs, sanMeds_fixed dF meds g3 hmeds]
  show Except.ok (PyVal.dict (sanOpts dF)) = _
  rw [sanOpts_fixed dF opts g4 hopts]

/-! ### Shared helper lemmas for the claim theorems -/

theorem sanitize_info_ok_dict (d : List (String × PyVal)) (v : PyVal)
    (h : sanitize_info (.dict d) = .ok v) : ∃ dF, v = .dict dF := by
  have h0 : (match sanStats d with
      | Except.error e => (Except.error e : Except String PyVal)
      | Except.ok d1 =>
        match sanMeds (sanRegions d1) with
        | Except.error e => Except.error e
        | Except.ok d3 => Except.ok (.dict (sanOpts d3))) = .ok v := h
  cases hS : sanStats d with
  | error e => rw [hS] at h0; exact absurd h0 (by simp)
  | ok d1 =>
    rw [hS] at h0
    have h1 : (match sanMeds (sanRegions d1) with
        | Except.error e => (Except.error e : Except String PyVal)
        | Except.ok d3 => Except.ok (.dict (sanOpts d3))) = .ok v := h0
    cases hM : sanMeds (sanRegions d1) with
    | error e => rw [hM] at h1; exact absurd h1 (by simp)
    | ok d3 =>
      rw [hM] at h1
      have h2 : Except.ok (PyVal.dict (sanOpts d3)) =
          (Except.ok v : Except String PyVal) := h1
      exact ⟨sanOpts d3, (Except.ok.inj h2).symm⟩

theorem fixRegions_mem_shape (xs : List PyVal) (x : PyVal) (hx : x ∈ fixRegions xs) :
    ∃ s : String, ∃ c dth : Int,
      x = .dict [("region", .str s), ("cases", .int c), ("deaths", .int dth)] := by
  induction xs with
  | nil => simp [fixRegions] at hx
  | cons y ys ih =>
    cases y with
    | dict e =>
      have he : fixRegions (PyVal.dict e :: ys) = regionFix e :: fixRegions ys := rfl
      rw [he] at hx
      rcases List.mem_cons.mp hx with h | h
      · rw [regionFix] at h
        exact ⟨_, _, _, h⟩
      · exact ih h
    | none => exact ih hx
    | bool b => exact ih hx
    | int n => exact ih hx
    | float q => exact ih hx
    | str s => exact ih hx
    | list zs => exact ih hx

theorem findC_append_of_not_mem (a b : List Char) (c : Char) (ha : c ∉ a) :
    findC (a ++ b) c = (findC b c).map (fun i => i + a.length) := by
  induction a with
  | nil =>
    cases h : findC b c <;> simp [h]
  | cons x rest ih =>
    have hx : ¬(x = c) := fun h => ha (by simp [h])
    have hrest : c ∉ rest := fun h => ha (List.mem_cons_of_mem _ h)
    show findC (x :: (rest ++ b)) c = _
    rw [findC, if_neg hx, ih hrest]
    cases findC b c <;> simp [Nat.add_assoc]

theorem findC_head (cs : List Char) (c : Char) : findC (c :: cs) c = some 0 := by
  simp [findC]

theorem coerce_incidence_int_zero : coerce_incidence (.int 0) = 0 := by
  have h : coerce_incidence (.int 0) = mantVal ['0'] [] := rfl
  have h2 : natOfDigits ['0'] = 0 := rfl
  have h3 : natOfDigits ([] : List Char) = 0 := rfl
  rw [h, mantVal, h2, h3]
  norm_num

/-! ### Claim theorems -/

/-- C1: the spec says interpolating the disease name into the instruction
template cannot trigger on the template's literal schema braces and that
nothing propagates uncaught from the Gateway call.  In fact
`USER_TEMPLATE.format(disease=...)` (main.py line 198) treats the schema's
first bare opening brace as a replacement field, so for every disease name
and every service behaviour `call_openai` raises
`KeyError` on the field name `"\n  \"name\""` instead of returning a
(success, data, diagnostics) triple. -/
theorem call_openai_template_keyerror (disease : String) (outcomes : Nat → Outcome) :
    call_openai disease outcomes = .error "KeyError: \n  \"name\"" := rfl

/-- C3: the spec's end-to-end retry scenario — three consecutive transport
failures, then `success == false` with a non-empty diagnostic and no
escaping exception — cannot happen: the template `KeyError` of main.py
line 198 fires before the first attempt, even though the retry loop itself
(modelled by `callLoop`), were it reached, would return the specified
failure triple carrying the last error's description. -/
theorem call_openai_three_failures_keyerror :
    call_openai "influenza"
        (fun _ => Outcome.raises "APIConnectionError" "Connection error.") =
      .error "KeyError: \n  \"name\"" ∧
    callLoop (fun _ => Outcome.raises "APIConnectionError" "Connection error.") 0 3 "" =
      (false, .dict [], "APIConnectionError: Connection error.") :=
  ⟨rfl, rfl⟩

/-- C6 (amended): native integers are accepted as-is by both integer
coercions, and thousands-separated strings are normalized; but decimal
suffixes are dropped only by the `total_cases` coercion — the
`cases`/`deaths` coercion has no `.split(".")` and falls back to `0` —
and unparsable values default to `0`. -/
theorem int_field_coercion_cases :
    (∀ n : Int, coerce_total (.int n) = n ∧ coerce_cd (.int n) = n) ∧
    coerce_total (.str "12,345") = 12345 ∧ coerce_cd (.str "12,345") = 12345 ∧
    coerce_total (.str "1,234.5") = 1234 ∧ coerce_cd (.str "1,234.5") = 0 ∧
    coerce_total (.str "not a number") = 0 ∧ coerce_cd (.str "not a number") = 0 :=
  ⟨fun n => ⟨coerce_total_int n, coerce_cd_int n⟩, rfl, rfl, rfl, rfl, rfl, rfl⟩

/-- C6 counterexample: for the thousands-separated decimal string
`"1,234.56"` the claim predicts `1234` for every integer field, but the
`cases`/`deaths` coercion (main.py lines 152-165, no `.split(".")`)
yields `0`, unlike the `total_cases` coercion. -/
theorem cases_decimal_string_zero :
    coerce_cd (.str "1,234.56") = 0 ∧ coerce_total (.str "1,234.56") = 1234 ∧
      (0 : Int) ≠ 1234 :=
  ⟨rfl, rfl, by decide⟩

/-- C9: on every dictionary input — every well-formed JSON object —
`sanitize_info` is idempotent: feeding a successfully normalized record
back through normalization returns it unchanged (and when normalization
raises, both sides raise alike), so `normalize (normalize x) =
normalize x`. -/
theorem sanitize_info_idempotent (d : List (String × PyVal)) :
    (sanitize_info (.dict d)).bind sanitize_info = sanitize_info (.dict d) := by
  cases h : sanitize_info (.dict d) with
  | error e => rfl
  | ok v =>
    obtain ⟨dF, rfl⟩ := sanitize_info_ok_dict d v h
    show sanitize_info (.dict dF) = .ok (.dict dF)
    exact sanitize_info_fixed d dF h

/-- C2 counterexample: normalization is not total and its output is not
fully typed: a truthy non-dict `statistics` raises an uncaught
`TypeError`, and the all-default record produced for brace-free text has
no `name` field at all (nor `summary` or `disclaimer`). -/
theorem sanitize_crash_and_missing_name :
    sanitize_info (.dict [("statistics", .str "severe")]) =
      .error "TypeError: object does not support item assignment" ∧
    sanitize_info (safe_load_json (.str "The model returned no JSON at all.")) =
      .ok (.dict [("statistics", .dict [("total_cases", .int 0),
          ("incidence_per_100k", .float 0), ("recovery_rate", .str "0%"),
          ("mortality_rate", .str "0%")]),
        ("region_breakdown", .list []), ("medications", .list []),
        ("recovery_options", .dict [])]) ∧
    dGetOpt [("statistics", PyVal.dict [("total_cases", PyVal.int 0),
          ("incidence_per_100k", PyVal.float 0), ("recovery_rate", PyVal.str "0%"),
          ("mortality_rate", PyVal.str "0%")]),
        ("region_breakdown", PyVal.list []), ("medications", PyVal.list []),
        ("recovery_options", PyVal.dict [])] "name" = Option.none := by
  refine ⟨rfl, ?_, rfl⟩
  have h : sanitize_info (safe_load_json (.str "The model returned no JSON at all.")) =
      .ok (.dict [("statistics", .dict [("total_cases", .int 0),
          ("incidence_per_100k", .float (coerce_incidence (.int 0))),
          ("recovery_rate", .str "0%"), ("mortality_rate", .str "0%")]),
        ("region_breakdown", .list []), ("medications", .list []),
        ("recovery_options", .dict [])]) := rfl
  rw [h, coerce_incidence_int_zero]

/-- C8: a collection list keeps exactly its well-formed (dict) elements —
a non-dict element is dropped, not replaced by a placeholder — a
non-list collection value normalizes to the empty list, and string
sub-fields of surviving entries are coerced through string conversion. -/
theorem collection_filtering_cases :
    (∀ e : List (String × PyVal), ∀ x : PyVal, isDictV x = false →
      fixRegions [PyVal.dict e, x] = [regionFix e]) ∧
    (∀ e : List (String × PyVal), ∀ x y : PyVal, isDictV x = false →
      medFix e = .ok y → fixMeds [PyVal.dict e, x] = .ok [y]) ∧
    (∀ d : List (String × PyVal), ∀ n : Int,
      dGetOpt d "region_breakdown" = some (.int n) →
      dGetOpt (sanRegions d) "region_breakdown" = some (.list [])) ∧
    regionFix [("region", .int 7), ("cases", .str "2"), ("deaths", PyVal.none)] =
      .dict [("region", .str "7"), ("cases", .int 2), ("deaths", .int 0)] := by
  refine ⟨?_, ?_, ?_, rfl⟩
  · intro e x hx
    cases x with
    | dict kvs => simp [isDictV] at hx
    | none => rfl
    | bool b => rfl
    | int n => rfl
    | float q => rfl
    | str s => rfl
    | list zs => rfl
  · intro e x y hx hy
    have hfix : fixMeds [PyVal.dict e, x] = (match medFix e with
        | Except.error err => (Except.error err : Except String (List PyVal))
        | Except.ok z =>
          match fixMeds [x] with
          | Except.error err => Except.error err
          | Except.ok ys => Except.ok (z :: ys)) := rfl
    have hx1 : fixMeds [x] = .ok [] := by
      cases x with
      | dict kvs => simp [isDictV] at hx
      | none => rfl
      | bool b => rfl
      | int n => rfl
      | float q => rfl
      | str s => rfl
      | list zs => rfl
    rw [hfix, hy, hx1]
  · intro d n hget
    have hd : dGet d "region_breakdown" (.list []) = .int n :=
      dGet_of_dGetOpt _ _ _ _ hget
    unfold sanRegions
    rw [hd, dGetOpt_setKeyL_self]
    by_cases hn : n = 0
    · subst hn
      rfl
    · simp [pyOr, pyTruthy, hn]

/-- C8 witness: a `region_breakdown` list holding one well-formed entry
and one bare string normalizes to exactly the coerced well-formed
entry. -/
theorem collection_filtering_witness :
    fixRegions [PyVal.dict [("region", .str "EU"), ("cases", .int 10),
        ("deaths", .int 1)], PyVal.str "junk"] =
      [regionFix [("region", .str "EU"), ("cases", .int 10), ("deaths", .int 1)]] :=
  collection_filtering_cases.1 [("region", PyVal.str "EU"), ("cases", PyVal.int 10),
    ("deaths", PyVal.int 1)] (PyVal.str "junk") rfl

/-- C2 (amended): normalization is total and container-complete exactly
when its crash conditions are avoided: whenever the `statistics` slot is
absent, falsy or a dict, and the `medications` pass succeeds (every
entry has an absent, falsy or iterable `side_effects`), `sanitize_info`
returns a record carrying all four container fields. -/
theorem sanitize_good_shape_total (d : List (String × PyVal))
    (hstat : ∃ sd, pyOr (dGet d "statistics" (.dict [])) (.dict []) = .dict sd)
    (hmeds : ∀ xs, pyOr (dGet d "medications" (.list [])) (.list []) = .list xs →
      ∃ ms, fixMeds xs = .ok ms) :
    ∃ dF, sanitize_info (.dict d) = .ok (.dict dF) ∧
      (dGetOpt dF "statistics").isSome = true ∧
      (dGetOpt dF "region_breakdown").isSome = true ∧
      (dGetOpt dF "medications").isSome = true ∧
      (dGetOpt dF "recovery_options").isSome = true := by
  obtain ⟨sd, hsd⟩ := hstat
  have hS : sanStats d = .ok (setKeyL d "statistics" (.dict (fixStatsD sd))) := by
    unfold sanStats
    rw [hsd]
    rfl
  have hdget : dGet (sanRegions (setKeyL d "statistics" (.dict (fixStatsD sd))))
      "medications" (.list []) = dGet d "medications" (.list []) := by
    unfold dGet sanRegions
    rw [dGetOpt_setKeyL_ne _ _ _ _ (by decide), dGetOpt_setKeyL_ne _ _ _ _ (by decide)]
  have hMex : ∃ ms, sanMeds (sanRegions (setKeyL d "statistics" (.dict (fixStatsD sd)))) =
      .ok (setKeyL (sanRegions (setKeyL d "statistics" (.dict (fixStatsD sd))))
        "medications" (.list ms)) := by
    unfold sanMeds
    rw [hdget]
    cases hval : pyOr (dGet d "medications" (.list [])) (.list []) with
    | list xs =>
      obtain ⟨ms, hms⟩ := hmeds xs hval
      refine ⟨ms, ?_⟩
      show (match fixMeds xs with
        | Except.error e => (Except.error e : Except String (List (String × PyVal)))
        | Except.ok meds => Except.ok (setKeyL (sanRegions (setKeyL d "statistics"
            (.dict (fixStatsD sd)))) "medications" (.list meds))) = _
      rw [hms]
    | none => exact ⟨[], rfl⟩
    | bool b => exact ⟨[], rfl⟩
    | int n => exact ⟨[], rfl⟩
    | float q => exact ⟨[], rfl⟩
    | str s => exact ⟨[], rfl⟩
    | dict kvs => exact ⟨[], rfl⟩
  obtain ⟨ms, hM⟩ := hMex
  refine ⟨sanOpts (setKeyL (sanRegions (setKeyL d "statistics" (.dict (fixStatsD sd))))
      "medications" (.list ms)), ?_, ?_, ?_, ?_, ?_⟩
  · show (match sanStats d with
        | Except.error e => (Except.error e : Except String PyVal)
        | Except.ok x1 =>
          match sanMeds (sanRegions x1) with
          | Except.error e => Except.error e
          | Except.ok x3 => Except.ok (.dict (sanOpts x3))) = _
    rw [hS]
    show (match sanMeds (sanRegions (setKeyL d "statistics" (.dict (fixStatsD sd)))) with
        | Except.error e => (Except.error e : Except String PyVal)
        | Except.ok x3 => Except.ok (.dict (sanOpts x3))) = _
    rw [hM]
  · unfold sanOpts
    rw [dGetOpt_setKeyL_ne _ _ _ _ (by decide), dGetOpt_setKeyL_ne _ _ _ _ (by decide)]
    unfold sanRegions
    rw [dGetOpt_setKeyL_ne _ _ _ _ (by decide), dGetOpt_setKeyL_self]
    rfl
  · unfold sanOpts
    rw [dGetOpt_setKeyL_ne _ _ _ _ (by decide), dGetOpt_setKeyL_ne _ _ _ _ (by decide)]
    unfold sanRegions
    rw [dGetOpt_setKeyL_self]
    rfl
  · unfold sanOpts
    rw [dGetOpt_setKeyL_ne _ _ _ _ (by decide), dGetOpt_setKeyL_self]
    rfl
  · unfold sanOpts
    rw [dGetOpt_setKeyL_self]
    rfl

/-- C2 witness: a record holding only a name normalizes successfully
with all four container fields present. -/
theorem sanitize_good_shape_total_witness :
    ∃ dF, sanitize_info (.dict [("name", PyVal.str "flu")]) = .ok (.dict dF) ∧
      (dGetOpt dF "statistics").isSome = true ∧
      (dGetOpt dF "region_breakdown").isSome = true ∧
      (dGetOpt dF "medications").isSome = true ∧
      (dGetOpt dF "recovery_options").isSome = true :=
  sanitize_good_shape_total [("name", PyVal.str "flu")] ⟨[], rfl⟩
    (fun xs hxs => ⟨[], by
      have h2 : PyVal.list ([] : List PyVal) = PyVal.list xs := hxs
      cases h2
      rfl⟩)

/-- C4 (amended): every record normalization returns satisfies the typed
shape invariants — an integer `total_cases`, a rational
`incidence_per_100k`, percent strings ending in `%` unless they are
non-numeric pass-through text, fully-shaped region entries and all
collection fields present — but no non-negativity is guaranteed. -/
theorem sanitize_output_shape (d dF : List (String × PyVal))
    (h : sanitize_info (.dict d) = .ok (.dict dF)) :
    ∃ sd : List (String × PyVal),
      dGetOpt dF "statistics" = some (.dict sd) ∧
      (∃ n : Int, dGetOpt sd "total_cases" = some (.int n)) ∧
      (∃ q : Rat, dGetOpt sd "incidence_per_100k" = some (.float q)) ∧
      (∃ r : String, dGetOpt sd "recovery_rate" = some (.str r) ∧
        (endsPct r.data = true ∨ pctNumeric r.data = false)) ∧
      (∃ r : String, dGetOpt sd "mortality_rate" = some (.str r) ∧
        (endsPct r.data = true ∨ pctNumeric r.data = false)) ∧
      (∃ regs : List PyVal, dGetOpt dF "region_breakdown" = some (.list regs) ∧
        ∀ x ∈ regs, ∃ s : String, ∃ c dth : Int,
          x = .dict [("region", .str s), ("cases", .int c), ("deaths", .int dth)]) ∧
      (∃ meds : List PyVal, dGetOpt dF "medications" = some (.list meds)) ∧
      (∃ opts : List (String × PyVal), dGetOpt dF "recovery_options" = some (.dict opts)) := by
  obtain ⟨sd, regs, meds, opts, hsd, hregs, hmeds, hopts, g1, g2, g3, g4⟩ :=
    sanitize_info_shape d dF h
  obtain ⟨⟨n, hn⟩, ⟨q, hq, _⟩, ⟨r1, hr1, he1⟩, ⟨r2, hr2, he2⟩⟩ := hsd
  refine ⟨sd, g1, ⟨n, hn⟩, ⟨q, hq⟩, ⟨r1, hr1, ?_⟩, ⟨r2, hr2, ?_⟩,
    ⟨regs, g2, ?_⟩, ⟨meds, g3⟩, ⟨opts, g4⟩⟩
  · rcases ensure_pct_shape (.str r1) with hsh | hsh
    · left
      rwa [he1] at hsh
    · right
      rw [he1] at hsh
      simp [pctNumeric, hsh]
  · rcases ensure_pct_shape (.str r2) with hsh | hsh
    · left
      rwa [he2] at hsh
    · right
      rw [he2] at hsh
      simp [pctNumeric, hsh]
  · intro x hx
    rw [← hregs] at hx
    exact fixRegions_mem_shape regs x hx

/-- C4 counterexample: a negative `total_cases` survives normalization
unchanged, and a non-numeric `recovery_rate` is kept without a `%`
suffix, so neither the non-negativity nor the unconditional
percent-suffix invariant holds. -/
theorem sanitize_negative_and_bare_rate :
    sanitize_info (.dict [("statistics", .dict [("total_cases", .int (-5)),
        ("recovery_rate", .str "high")])]) =
      .ok (.dict [("statistics", .dict [("total_cases", .int (-5)),
          ("recovery_rate", .str "high"), ("incidence_per_100k", .float 0),
          ("mortality_rate", .str "0%")]),
        ("region_breakdown", .list []), ("medications", .list []),
        ("recovery_options", .dict [])]) ∧
    ((-5 : Int) < 0) ∧ endsPct "high".data = false := by
  refine ⟨?_, by decide, rfl⟩
  have h : sanitize_info (.dict [("statistics", .dict [("total_cases", .int (-5)),
        ("recovery_rate", .str "high")])]) =
      .ok (.dict [("statistics", .dict [("total_cases", .int (-5)),
          ("recovery_rate", .str "high"),
          ("incidence_per_100k", .float (coerce_incidence (.int 0))),
          ("mortality_rate", .str "0%")]),
        ("region_breakdown", .list []), ("medications", .list []),
        ("recovery_options", .dict [])]) := rfl
  rw [h, coerce_incidence_int_zero]

/-- C4 witness: the empty object normalizes successfully, so the shape
theorem applies to its concrete output record. -/
theorem sanitize_output_shape_witness :
    ∃ sd : List (String × PyVal),
      dGetOpt [("statistics", PyVal.dict [("total_cases", PyVal.int 0),
          ("incidence_per_100k", PyVal.float (coerce_incidence (.int 0))),
          ("recovery_rate", PyVal.str "0%"), ("mortality_rate", PyVal.str "0%")]),
        ("region_breakdown", PyVal.list []), ("medications", PyVal.list []),
        ("recovery_options", PyVal.dict [])] "statistics" = some (.dict sd) ∧
      (∃ n : Int, dGetOpt sd "total_cases" = some (.int n)) ∧
      (∃ q : Rat, dGetOpt sd "incidence_per_100k" = some (.float q)) ∧
      (∃ r : String, dGetOpt sd "recovery_rate" = some (.str r) ∧
        (endsPct r.data = true ∨ pctNumeric r.data = false)) ∧
      (∃ r : String, dGetOpt sd "mortality_rate" = some (.str r) ∧
        (endsPct r.data = true ∨ pctNumeric r.data = false)) ∧
      (∃ regs : List PyVal, dGetOpt [("statistics", PyVal.dict [("total_cases", PyVal.int 0),
          ("incidence_per_100k", PyVal.float (coerce_incidence (.int 0))),
          ("recovery_rate", PyVal.str "0%"), ("mortality_rate", PyVal.str "0%")]),
        ("region_breakdown", PyVal.list []), ("medications", PyVal.list []),
        ("recovery_options", PyVal.dict [])] "region_breakdown" = some (.list regs) ∧
        ∀ x ∈ regs, ∃ s : String, ∃ c dth : Int,
          x = .dict [("region", .str s), ("cases", .int c), ("deaths", .int dth)]) ∧
      (∃ meds : List PyVal, dGetOpt [("statistics", PyVal.dict [("total_cases", PyVal.int 0),
          ("incidence_per_100k", PyVal.float (coerce_incidence (.int 0))),
          ("recovery_rate", PyVal.str "0%"), ("mortality_rate", PyVal.str "0%")]),
        ("region_breakdown", PyVal.list []), ("medications", PyVal.list []),
        ("recovery_options", PyVal.dict [])] "medications" = some (.list meds)) ∧
      (∃ opts : List (String × PyVal),
        dGetOpt [("statistics", PyVal.dict [("total_cases", PyVal.int 0),
          ("incidence_per_100k", PyVal.float (coerce_incidence (.int 0))),
          ("recovery_rate", PyVal.str "0%"), ("mortality_rate", PyVal.str "0%")]),
        ("region_breakdown", PyVal.list []), ("medications", PyVal.list []),
        ("recovery_options", PyVal.dict [])] "recovery_options" = some (.dict opts)) :=
  sanitize_output_shape [] [("statistics", PyVal.dict [("total_cases", PyVal.int 0),
      ("incidence_per_100k", PyVal.float (coerce_incidence (.int 0))),
      ("recovery_rate", PyVal.str "0%"), ("mortality_rate", PyVal.str "0%")]),
    ("region_breakdown", PyVal.list []), ("medications", PyVal.list []),
    ("recovery_options", PyVal.dict [])] rfl

/-- C5 (amended): for `recovery_rate`/`mortality_rate` values whose
stripped text parses as a number (commas read as decimal points, an
optional `%` ignored), the normalized string ends in `%` and parses back
to the same numeric value; non-numeric text is passed through STRIPPED
of surrounding whitespace (not unchanged); `None` and
whitespace-or-empty values give `"0%"`. -/
theorem pct_normalization_cases :
    (∀ v : PyVal, ∀ q : Rat, v ≠ .none →
      pyFloatParseL (mapChar (removeChar (pyStripL (pyStr v).data) '%') ',' '.') = some q →
      endsPct (ensure_pct_str v).data = true ∧
        coerce_pct (.str (ensure_pct_str v)) = q ∧ coerce_pct v = q) ∧
    (∀ v : PyVal, v ≠ .none → pyStripL (pyStr v).data ≠ [] →
      pctNumeric (pyStripL (pyStr v).data) = false →
      ensure_pct_str v = String.mk (pyStripL (pyStr v).data)) ∧
    ensure_pct_str .none = "0%" ∧
    (∀ v : PyVal, pyStripL (pyStr v).data = [] → ensure_pct_str v = "0%") := by
  refine ⟨?_, ?_, rfl, ?_⟩
  · intro v q hv hq
    have hnum : pctNumeric (pyStripL (pyStr v).data) = true := by
      simp [pctNumeric, hq]
    have ht0 : pyStripL (pyStr v).data ≠ [] := by
      intro h0
      rw [h0] at hq
      have h1 : (Option.none : Option Rat) = some q := hq
      exact Option.noConfusion h1
    have hts : pyStripL (pyStripL (pyStr v).data) = pyStripL (pyStr v).data :=
      pyStripL_idem _
    have hout : ensure_pct_str v = if endsPct (pyStripL (pyStr v).data) then
        String.mk (pyStripL (pyStr v).data)
      else String.mk (pyStripL (pyStr v).data ++ ['%']) := by
      rw [ensure_pct_str_eq v hv]
      show (if pyStripL (pyStr v).data = [] then "0%"
        else if pctNumeric (pyStripL (pyStr v).data) then
          if endsPct (pyStripL (pyStr v).data) then String.mk (pyStripL (pyStr v).data)
          else String.mk (pyStripL (pyStr v).data ++ ['%'])
        else String.mk (pyStripL (pyStr v).data)) = _
      rw [if_neg ht0, if_pos hnum]
    refine ⟨?_, ?_, ?_⟩
    · rw [hout]
      by_cases hend : endsPct (pyStripL (pyStr v).data)
      · rw [if_pos hend]
        exact hend
      · rw [if_neg hend]
        exact endsPct_concat _
    · rw [hout]
      by_cases hend : endsPct (pyStripL (pyStr v).data)
      · rw [if_pos hend]
        show (pyFloatParseL (mapChar (removeChar
          (pyStripL (pyStripL (pyStr v).data)) '%') ',' '.')).getD 0 = q
        rw [hts, hq]
        rfl
      · rw [if_neg hend]
        show (pyFloatParseL (mapChar (removeChar
          (pyStripL (pyStripL (pyStr v).data ++ ['%'])) '%') ',' '.')).getD 0 = q
        rw [pyStripL_concat_pct _ hts, removeChar_concat_pct, hq]
        rfl
    · show (pyFloatParseL (mapChar (removeChar
        (pyStripL (pyStr v).data) '%') ',' '.')).getD 0 = q
      rw [hq]
      rfl
  · intro v hv ht0 hnum
    rw [ensure_pct_str_eq v hv]
    show (if pyStripL (pyStr v).data = [] then "0%"
      else if pctNumeric (pyStripL (pyStr v).data) then
        if endsPct (pyStripL (pyStr v).data) then String.mk (pyStripL (pyStr v).data)
        else String.mk (pyStripL (pyStr v).data ++ ['%'])
      else String.mk (pyStripL (pyStr v).data)) = _
    rw [if_neg ht0, if_neg (by simp [hnum])]
  · intro v ht
    by_cases hv : v = .none
    · subst hv
      rfl
    · rw [ensure_pct_str_eq v hv]
      show (if pyStripL (pyStr v).data = [] then "0%"
        else if pctNumeric (pyStripL (pyStr v).data) then
          if endsPct (pyStripL (pyStr v).data) then String.mk (pyStripL (pyStr v).data)
          else String.mk (pyStripL (pyStr v).data ++ ['%'])
        else String.mk (pyStripL (pyStr v).data)) = _
      rw [if_pos ht]

/-- C5 counterexample: non-numeric text is NOT passed through unchanged —
surrounding whitespace is stripped first, so a descriptive value with
padding comes back altered. -/
theorem pct_strip_changes_text :
    ensure_pct_str (.str " high ") = "high" ∧ (" high " : String) ≠ "high" :=
  ⟨rfl, by decide⟩

/-- C5 witness: the comma-decimal numeric string `"82,5"` normalizes to a
percent string that parses back to the same value `165/2 = 82.5`. -/
theorem pct_normalization_cases_witness :
    endsPct (ensure_pct_str (.str "82,5")).data = true ∧
      coerce_pct (.str (ensure_pct_str (.str "82,5"))) = 165 / 2 ∧
      coerce_pct (.str "82,5") = 165 / 2 :=
  pct_normalization_cases.1 (.str "82,5") (165 / 2) (fun h => nomatch h) (by
    have h : pyFloatParseL (mapChar (removeChar
        (pyStripL (pyStr (PyVal.str "82,5")).data) '%') ',' '.') =
        some (mantVal ['8', '2'] ['5']) := rfl
    have h2 : natOfDigits ['8', '2'] = 82 := rfl
    have h3 : natOfDigits ['5'] = 5 := rfl
    rw [h, mantVal, h2, h3]
    norm_num)

/-- C7: JSON extraction is staged as specified: structured (dict) input
passes through unchanged; a direct parse is used when it succeeds; when
it fails, the substring from the first opening brace to the last closing
brace is parsed — so one JSON object wrapped in brace-free prose yields
exactly that object's parsed content — and the greedy brace regex of the
last-resort stage denotes that same first-to-last-brace substring, so it
can never recover anything more. -/
theorem json_extraction_stages :
    (∀ kvs : List (String × PyVal), safe_load_json (.dict kvs) = .dict kvs) ∧
    (∀ s : String, ∀ v : PyVal, pyJsonLoads s = some v → safe_load_json (.str s) = v) ∧
    (∀ p1 jmid p2 : List Char, ∀ o : List (String × PyVal),
      '{' ∉ p1 → '}' ∉ p2 →
      pyJsonLoads (String.mk (p1 ++ ('{' :: (jmid ++ ['}'])) ++ p2)) = Option.none →
      pyJsonLoads (String.mk ('{' :: (jmid ++ ['}']))) = some (.dict o) →
      safe_load_json (.str (String.mk (p1 ++ ('{' :: (jmid ++ ['}'])) ++ p2))) = .dict o) ∧
    (∀ cs : List Char, ∀ st en : Nat, findC cs '{' = some st →
      rfindC cs '}' = some en → st < en →
      regexBraceSearch cs = some (pySlice cs st (en + 1 - st))) := by
  refine ⟨fun kvs => rfl, ?_, ?_, ?_⟩
  · intro s v h
    show (match pyJsonLoads s with
      | some w => w
      | Option.none =>
        let block := extract_json_block (.str s)
        if block.data ≠ [] then
          match pyJsonLoads block with
          | some w => w
          | Option.none => PyVal.dict []
        else PyVal.dict []) = v
    rw [h]
  · intro p1 jmid p2 o hp1 hp2 hwhole hj
    have hassoc : p1 ++ ('{' :: (jmid ++ ['}'])) ++ p2 =
        p1 ++ (('{' :: (jmid ++ ['}'])) ++ p2) := List.append_assoc _ _ _
    have hfind : findC (p1 ++ ('{' :: (jmid ++ ['}'])) ++ p2) '{' = some p1.length := by
      rw [hassoc, findC_append_of_not_mem _ _ _ hp1, List.cons_append, findC_head]
      simp
    have hrfind : rfindC (p1 ++ ('{' :: (jmid ++ ['}'])) ++ p2) '}' =
        some (p1.length + jmid.length + 1) := by
      unfold rfindC
      have hrev : (p1 ++ ('{' :: (jmid ++ ['}'])) ++ p2).reverse =
          p2.reverse ++ ('}' :: (jmid.reverse ++ '{' :: p1.reverse)) := by
        simp
      rw [hrev, findC_append_of_not_mem _ _ _ (by simpa using hp2), findC_head]
      have hlen : (p1 ++ ('{' :: (jmid ++ ['}'])) ++ p2).length =
          p1.length + jmid.length + 2 + p2.length := by
        simp
        omega
      simp [hlen]
      omega
    have hslice : pySlice (p1 ++ ('{' :: (jmid ++ ['}'])) ++ p2) p1.length
        (jmid.length + 2) = '{' :: (jmid ++ ['}']) := by
      unfold pySlice
      rw [hassoc, List.drop_left]
      have hl : jmid.length + 2 = ('{' :: (jmid ++ ['}'])).length := by
        simp
      rw [hl, List.take_left]
    have hextract : extract_json_block (.str (String.mk
        (p1 ++ ('{' :: (jmid ++ ['}'])) ++ p2))) = String.mk ('{' :: (jmid ++ ['}'])) := by
      show (match findC (p1 ++ ('{' :: (jmid ++ ['}'])) ++ p2) '{',
          rfindC (p1 ++ ('{' :: (jmid ++ ['}'])) ++ p2) '}' with
        | some st, some en =>
          if en > st then
            String.mk (pySlice (p1 ++ ('{' :: (jmid ++ ['}'])) ++ p2) st (en + 1 - st))
          else
            match regexBraceSearch (p1 ++ ('{' :: (jmid ++ ['}'])) ++ p2) with
            | some m => String.mk m
            | Option.none => ""
        | _, _ =>
          match regexBraceSearch (p1 ++ ('{' :: (jmid ++ ['}'])) ++ p2) with
          | some m => String.mk m
          | Option.none => "") = _
      rw [hfind, hrfind]
      show (if p1.length + jmid.length + 1 > p1.length then
          String.mk (pySlice (p1 ++ ('{' :: (jmid ++ ['}'])) ++ p2) p1.length
            (p1.length + jmid.length + 1 + 1 - p1.length))
        else
          match regexBraceSearch (p1 ++ ('{' :: (jmid ++ ['}'])) ++ p2) with
          | some m => String.mk m
          | Option.none => "") = _
      rw [if_pos (by omega)]
      have harith : p1.length + jmid.length + 1 + 1 - p1.length = jmid.length + 2 := by
        omega
      rw [harith, hslice]
    show (match pyJsonLoads (String.mk (p1 ++ ('{' :: (jmid ++ ['}'])) ++ p2)) with
      | some w => w
      | Option.none =>
        let block := extract_json_block (.str (String.mk
          (p1 ++ ('{' :: (jmid ++ ['}'])) ++ p2)))
        if block.data ≠ [] then
          match pyJsonLoads block with
          | some w => w
          | Option.none => PyVal.dict []
        else PyVal.dict []) = PyVal.dict o
    rw [hwhole, hextract]
    show (if (String.mk ('{' :: (jmid ++ ['}']))).data ≠ [] then
        match pyJsonLoads (String.mk ('{' :: (jmid ++ ['}']))) with
        | some w => w
        | Option.none => PyVal.dict []
      else PyVal.dict []) = PyVal.dict o
    rw [if_pos (by simp), hj]
  · intro cs st en hf hr hlt
    unfold regexBraceSearch
    rw [hf, hr]
    show (if st < en then some (pySlice cs st (en + 1 - st)) else Option.none) = _
    rw [if_pos hlt]

/-- C7 witness: a JSON object wrapped in explanatory prose is extracted
and parsed to exactly that object's content. -/
theorem json_extraction_stages_witness :
    safe_load_json (.str (String.mk ("Sure, here is the JSON: ".data ++
        ('{' :: ("\"name\": \"flu\"".data ++ ['}'])) ++ " Hope this helps.".data))) =
      .dict [("name", .str "flu")] :=
  json_extraction_stages.2.2.1 "Sure, here is the JSON: ".data "\"name\": \"flu\"".data
    " Hope this helps.".data [("name", .str "flu")] (by decide) (by decide) rfl rfl

/-- C10 counterexample: the claim is about `call_openai`, but
`call_openai` never reaches the JSON-handling path at all — the template
`KeyError` of main.py line 198 fires first even when the service would
return a JSON array. -/
theorem call_openai_array_output_keyerror :
    call_openai "malaria"
        (fun _ => Outcome.returns (PyResp.mk Option.none (some "[1, 2]")
          Option.none Option.none Option.none Option.none)) =
      .error "KeyError: \n  \"name\"" := rfl

/-- C10 (amended to the attempt level): when the raw model text parses as
JSON to a truthy non-object value — for example a non-empty array — the
attempt body reports success together with the EMPTY record (because
`sanitize_info` maps every non-dict to the empty dict), instead of the
invalid-JSON failure and retry. -/
theorem attempt_array_success_empty_record (s : String) (v : PyVal)
    (hs : s ≠ "") (hp : pyJsonLoads s = some v) (ht : pyTruthy v = true)
    (hd : isDictV v = false) :
    attemptBody (PyResp.mk Option.none (some s) Option.none Option.none
      Option.none Option.none) = .ok (true, .dict [], s) := by
  have hload : safe_load_json (.str s) = v := by
    show (match pyJsonLoads s with
      | some w => w
      | Option.none =>
        let block := extract_json_block (.str s)
        if block.data ≠ [] then
          match pyJsonLoads block with
          | some w => w
          | Option.none => PyVal.dict []
        else PyVal.dict []) = v
    rw [hp]
  have hsan : sanitize_info v = .ok (.dict []) := by
    cases v with
    | dict kvs => simp [isDictV] at hd
    | none => rfl
    | bool b => rfl
    | int n => rfl
    | float q => rfl
    | str t => rfl
    | list xs => rfl
  show (let raw1 := if ¬((Option.some s).getD "" = "") then (Option.some s).getD "" else "";
    let raw2 := if raw1 = "" then raw1 else raw1;
    let data := safe_load_json (.str raw2);
    if pyTruthy data then
      match sanitize_info data with
      | Except.ok rec => (Except.ok (true, rec, raw2) : Except String (Bool × PyVal × String))
      | Except.error e => Except.error e
    else Except.error "Invalid JSON from model") = .ok (true, .dict [], s)
  have hraw : (if ¬((Option.some s).getD "" = "") then (Option.some s).getD "" else "") = s :=
    if_pos (by simpa using hs)
  simp only [hraw, ite_self, hload]
  rw [if_pos ht]
  show (match sanitize_info v with
    | Except.ok rec => (Except.ok (true, rec, s) : Except String (Bool × PyVal × String))
    | Except.error e => Except.error e) = _
  rw [hsan]

/-- C10 witness: the concrete array response text yields a success flag
with the empty record. -/
theorem attempt_array_success_empty_record_witness :
    attemptBody (PyResp.mk Option.none (some "[1, 2]") Option.none Option.none
      Option.none Option.none) = .ok (true, .dict [], "[1, 2]") :=
  attempt_array_success_empty_record "[1, 2]" (.list [.int 1, .int 2])
    (by decide) rfl rfl rfl

end Health
